import Mathlib

/-!
Verification of the addris backend (address extraction, geocoding, routing
and job orchestration) against its natural-language specification.

The Python sources under src/backend/app are shallowly embedded here:
pure functions become Lean functions over ℚ (Python floats are modelled as
exact rationals), Python dicts become insertion-ordered association lists,
fallible calls return Except/Option, and external collaborators (OCR engine,
libpostal parser, geocoding provider, distance provider, TSP solver, the
wall clock) are oracle parameters of an Env structure.  Python truthiness,
str.strip/lower semantics (ASCII), and the specific regular expressions of
the source are modelled by explicit executable functions.
-/

namespace Addris

/-! ### Python string primitives (ASCII model) -/

/-- Characters of the Python str.strip default set / regex \s class. -/
def isPySpace (c : Char) : Bool :=
  c = ' ' || c = '\t' || c = '\n' || c = '\r' || c = Char.ofNat 11 || c = Char.ofNat 12

/-- strip on a character list: drop whitespace from both ends. -/
def stripChars (l : List Char) : List Char :=
  ((l.dropWhile isPySpace).reverse.dropWhile isPySpace).reverse

/-- Python str.strip(). -/
def pyStrip (s : String) : String :=
  String.mk (stripChars s.toList)

/-- Python str.lower() (ASCII). -/
def pyLower (s : String) : String :=
  String.mk (s.toList.map Char.toLower)

/-- " ".join(...) -/
def joinSpace (l : List String) : String :=
  String.intercalate " " l

/-- Sum of a list of rationals (Python sum). -/
def ratSum (l : List ℚ) : ℚ :=
  l.foldl (· + ·) 0

/-- dict.fromkeys-style first-occurrence deduplication, preserving order. -/
def dedupFirst : List String → List String
  | [] => []
  | x :: xs => x :: dedupFirst (xs.filter (fun y => y ≠ x))
termination_by l => l.length
decreasing_by
simp only [List.length_cons]
exact Nat.lt_succ_of_le (List.length_filter_le _ _)

/-! ### src/backend/app/domain/text.py -/

/-- Python range(n - size + 1) where the subtraction is over ℤ:
empty when size exceeds the length. -/
def pyRangeLen (n size : Nat) : List Nat :=
  if size ≤ n then List.range (n - size + 1) else []

/-- One sliding window candidate: ocr_results[i : i+size] joined by a single
space, confidence the arithmetic mean of the members. -/
def windowCandidate (ocr : List (String × ℚ)) (size i : Nat) : String × ℚ :=
  let window := (ocr.drop i).take size
  (joinSpace (window.map Prod.fst), ratSum (window.map Prod.snd) / (size : ℚ))

/-- generate_sliding_window_candidates (domain/text.py), embedded as the
source's nested accumulation loops.  Callers pass the source defaults
min_window = 2, max_window = 5 explicitly. -/
def generate_sliding_window_candidates
    (minWindow maxWindow : Nat) (ocr : List (String × ℚ)) : List (String × ℚ) :=
  let n := ocr.length
  let candidates := ocr
  let candidates :=
    (List.range' minWindow (maxWindow + 1 - minWindow)).foldl
      (fun acc size =>
        (pyRangeLen n size).foldl
          (fun acc2 i => acc2 ++ [windowCandidate ocr size i]) acc)
      candidates
  if 1 < n ∧ n ≤ 20 then
    candidates ++
      [(joinSpace (ocr.map Prod.fst), ratSum (ocr.map Prod.snd) / (n : ℚ))]
  else
    candidates

/-- All windows of a fixed size, declaratively. -/
def windowsOfSize (ocr : List (String × ℚ)) (size : Nat) : List (String × ℚ) :=
  (pyRangeLen ocr.length size).map (windowCandidate ocr size)

/-- The full-text candidate appended by domain/text.py when 1 < n ≤ 20. -/
def fullTextChunk (ocr : List (String × ℚ)) : List (String × ℚ) :=
  if 1 < ocr.length ∧ ocr.length ≤ 20 then
    [(joinSpace (ocr.map Prod.fst), ratSum (ocr.map Prod.snd) / (ocr.length : ℚ))]
  else
    []

/-! ### src/backend/app/services/pipeline.py : _generate_text_candidates -/

/-- ocr_results[i] with the out-of-range default never reached by the
source's loop bounds. -/
def ocrNth (ocr : List (String × ℚ)) (i : Nat) : String × ℚ :=
  ocr.getD i ("", 0)

/-- services/pipeline.py _generate_text_candidates: individual lines, then
windows of 2 adjacent lines, then windows of 3 adjacent lines. -/
def pipeline_generate_text_candidates (ocr : List (String × ℚ)) : List (String × ℚ) :=
  let n := ocr.length
  let candidates : List (String × ℚ) := [] ++ ocr
  let candidates :=
    (List.range (n - 1)).foldl
      (fun acc i =>
        let t1 := ocrNth ocr i
        let t2 := ocrNth ocr (i + 1)
        acc ++ [(t1.1 ++ " " ++ t2.1, (t1.2 + t2.2) / 2)])
      candidates
  (List.range (n - 2)).foldl
    (fun acc i =>
      let t1 := ocrNth ocr i
      let t2 := ocrNth ocr (i + 1)
      let t3 := ocrNth ocr (i + 2)
      acc ++ [(t1.1 ++ " " ++ t2.1 ++ " " ++ t3.1, (t1.2 + t2.2 + t3.2) / 3)])
    candidates

/-! ### Regex models (word boundaries, the noise lexicon, the phone pattern)

The source uses three regular expressions; each is modelled by an explicit
executable matcher over character lists with Python re semantics
(leftmost scan, greedy optionals with backtracking, \b = word boundary,
\s = whitespace class, \w = alphanumeric or underscore, ASCII model). -/

def isWordChar (c : Char) : Bool :=
  c.isAlphanum || c = '_'

def boundaryBetween (left right : Option Char) : Bool :=
  (match left with | some c => isWordChar c | none => false) ≠
    (match right with | some c => isWordChar c | none => false)

/-- Match a literal character sequence at the head, returning the rest. -/
def matchLit : List Char → List Char → Option (List Char)
  | [], l => some l
  | _ :: _, [] => none
  | w :: ws, c :: cs => if w = c then matchLit ws cs else none

/-- The fixed alternatives of _NOISE_PATTERN (lowercase), other than the
two spellings of drop\s?off which need the whitespace class. -/
def noiseWords : List String :=
  ["tracking", "shipment", "shipping", "package", "parcel", "barcode",
   "delivery", "deliveries", "pickup", "dropoff", "mail", "label", "order",
   "confirmation", "invoice", "reference", "usps", "fedex", "ups", "dhl"]

/-- Lengths of noise-lexicon alternatives matching at the head of the
(lowercased) text: the fixed words, plus "drop" ++ one whitespace ++ "off". -/
def noiseMatchLens (l : List Char) : List Nat :=
  (noiseWords.filterMap fun w =>
    match matchLit w.toList l with
    | some _ => some w.toList.length
    | none => none) ++
  (match matchLit "drop".toList l with
   | some rest =>
     match rest with
     | c :: rest2 =>
       if isPySpace c then
         match matchLit "off".toList rest2 with
         | some _ => [8]
         | none => []
       else []
     | [] => []
   | none => [])

/-- _NOISE_PATTERN.search: scan every position of the lowercased text for a
word-boundary-delimited alternative. -/
def noiseSearchGo (prev : Option Char) : List Char → Bool
  | [] => false
  | c :: rest =>
    ((noiseMatchLens (c :: rest)).any fun n =>
      boundaryBetween prev (some c) &&
        boundaryBetween (((c :: rest).take n).getLast? ) ((c :: rest).drop n).head?) ||
    noiseSearchGo (some c) rest

def noiseSearch (s : String) : Bool :=
  noiseSearchGo none (s.toList.map Char.toLower)

/-- The separator class [-.\s] of _PHONE_PATTERN. -/
def isPhoneSep (c : Char) : Bool :=
  c = '-' || c = '.' || isPySpace c

/-- Consumed lengths of the greedy optional separator, in backtracking
priority order (present first, then absent). -/
def optsSep (l : List Char) : List Nat :=
  (match l with
   | c :: _ => if isPhoneSep c then [1] else []
   | [] => []) ++ [0]

/-- Exactly k digits at the head (single option, else no option). -/
def optsDigits (k : Nat) (l : List Char) : List Nat :=
  if (l.take k).length = k ∧ (l.take k).all Char.isDigit then [k] else []

/-- (?:\(\d{3}\)|\d{3}) in alternation priority order. -/
def optsArea (l : List Char) : List Nat :=
  (match l with
   | '(' :: d1 :: d2 :: d3 :: ')' :: _ =>
     if d1.isDigit && d2.isDigit && d3.isDigit then [5] else []
   | _ => []) ++ optsDigits 3 l

/-- (?:\+?1[-.\s]?)? in backtracking priority order: +1 with optional
separator, then 1 with optional separator, then the group absent. -/
def optsPrefix (l : List Char) : List Nat :=
  (match l with
   | '+' :: '1' :: rest => (optsSep rest).map (fun s => 2 + s)
   | _ => []) ++
  (match l with
   | '1' :: rest => (optsSep rest).map (fun s => 1 + s)
   | _ => []) ++ [0]

/-- Length of the _PHONE_PATTERN match starting at the head of l, following
Python re backtracking priority, if any. -/
def matchPhoneAt (l : List Char) : Option Nat :=
  (optsPrefix l).findSome? fun p =>
    (optsArea (l.drop p)).findSome? fun a =>
      (optsSep (l.drop (p + a))).findSome? fun s1 =>
        (optsDigits 3 (l.drop (p + a + s1))).findSome? fun d1 =>
          (optsSep (l.drop (p + a + s1 + d1))).findSome? fun s2 =>
            if (optsDigits 4 (l.drop (p + a + s1 + d1 + s2))) = [4] then
              some (p + a + s1 + d1 + s2 + 4)
            else none

/-- _PHONE_PATTERN.findall(text) is non-empty: some position matches. -/
def phoneFoundGo : List Char → Bool
  | [] => false
  | c :: rest => (matchPhoneAt (c :: rest)).isSome || phoneFoundGo rest

def phoneFound (s : String) : Bool :=
  phoneFoundGo s.toList

/-- _PHONE_PATTERN.sub(" ", text): replace each leftmost non-overlapping
match by a single space.  skip counts characters of the current match still
to be consumed. -/
def phoneSubGo (skip : Nat) : List Char → List Char
  | [] => []
  | c :: rest =>
    match skip with
    | s + 1 => phoneSubGo s rest
    | 0 =>
      match matchPhoneAt (c :: rest) with
      | some n => ' ' :: phoneSubGo (n - 1) rest
      | none => c :: phoneSubGo 0 rest

def phoneSub (s : String) : List Char :=
  phoneSubGo 0 s.toList

/-- re.search(r"\b" ++ re.escape(word) ++ r"\b", text) for a non-empty
literal word: the word occurs at some position with word boundaries. -/
def wholeWordGo (word : List Char) (prev : Option Char) : List Char → Bool
  | [] =>
    (match matchLit word [] with
     | some _ => boundaryBetween prev word.head? && boundaryBetween word.getLast? none
     | none => false)
  | c :: rest =>
    (match matchLit word (c :: rest) with
     | some after =>
       boundaryBetween prev word.head? && boundaryBetween word.getLast? after.head?
     | none => false) ||
    wholeWordGo word (some c) rest

def wholeWord (word : String) (text : List Char) : Bool :=
  wholeWordGo word.toList none text

/-! ### src/backend/app/parsing/validation.py and
src/backend/app/domain/address.py : address validation

The two modules contain near-identical validators; they are embedded
separately.  domain/address.py (re-exported through app/services/parsing and
used by AddressExtractionService) additionally rejects a house_number that is
part of a detected phone number. -/

structure AddressValidationResult where
  is_valid : Bool
  reason : Option String
  components : Option (List (String × String))
deriving Repr, DecidableEq

def allowedComponents : List String :=
  ["house_number", "road", "unit", "level", "staircase", "entrance", "po_box",
   "suburb", "city_district", "city", "state_district", "state", "postcode",
   "country", "country_region", "world_region"]

def requiredCombinations : List (List String) :=
  [["house_number", "road"], ["road", "city"], ["road", "state"],
   ["road", "postcode"], ["house_number", "city"], ["house_number", "postcode"],
   ["po_box", "city"]]

def hasDigit (s : String) : Bool :=
  s.toList.any Char.isDigit

def hasAlpha (s : String) : Bool :=
  s.toList.any Char.isAlpha

/-- Python dict assignment d[k] = v: update in place if the key exists
(keeping its insertion position), else append. -/
def dictSet {α : Type} (d : List (String × α)) (k : String) (v : α) : List (String × α) :=
  if (d.lookup k).isSome then
    d.map (fun p => if p.1 = k then (k, v) else p)
  else
    d ++ [(k, v)]

/-- _normalize_postcode, identical in parsing/validation.py and
domain/address.py. -/
def normalize_postcode (postcode : String) : Option String :=
  let compact := pyStrip (String.mk (postcode.toList.filter (fun c => c ≠ ' ')))
  let l := compact.toList
  if compact = "" then none
  else if l.length = 5 ∧ l.all Char.isDigit then some (String.mk l)
  else if l.length = 10 ∧ (l.take 5).all Char.isDigit ∧ l.getD 5 ' ' = '-' ∧
      (l.drop 6).all Char.isDigit then
    some (String.mk (l.take 5) ++ "-" ++ String.mk (l.drop 6))
  else if 3 ≤ compact.length ∧ l.all Char.isAlphanum then some compact
  else none

/-- _is_part_of_phone_number (domain/address.py only). -/
def is_part_of_phone_number (houseNumber raw : String) : Bool :=
  if phoneFound raw = false then false
  else if wholeWord houseNumber (phoneSub raw) then false
  else true

namespace ParsingValidation

/-- One iteration of the component-cleaning loop of
parsing/validation.py validate_parsed_address (no phone-number rule). -/
def cleanStep (cleaned : List (String × String)) (entry : String × String) :
    List (String × String) :=
  let key := pyLower (pyStrip entry.1)
  if key ∉ allowedComponents then cleaned
  else
    let normalized := pyStrip entry.2
    if normalized = "" then cleaned
    else if noiseSearch normalized then cleaned
    else if key = "house_number" ∧ ¬hasDigit normalized then cleaned
    else if key = "road" ∧ ¬hasAlpha normalized then cleaned
    else if key = "postcode" then
      match normalize_postcode normalized with
      | none => cleaned
      | some p => dictSet cleaned key p
    else dictSet cleaned key normalized

def cleanComponents (parsed : List (String × String)) : List (String × String) :=
  parsed.foldl cleanStep []

/-- validate_parsed_address of parsing/validation.py. -/
def validate_parsed_address (parsed : List (String × String)) (raw : String) :
    AddressValidationResult :=
  if parsed = [] then ⟨false, some "No address components", none⟩
  else
    let rawNoise := noiseSearch raw
    let cleaned := cleanComponents parsed
    if cleaned.length < 2 then
      ⟨false,
        some (if rawNoise then "Insufficient address detail (looks like a shipping label)"
          else "Insufficient address detail"), none⟩
    else if ¬ requiredCombinations.any
        (fun combo => combo.all (fun k => (cleaned.lookup k).isSome)) then
      ⟨false,
        some (if rawNoise then "Missing essential address parts (looks like a shipping label)"
          else "Missing essential address parts"), none⟩
    else ⟨true, none, some cleaned⟩

end ParsingValidation

namespace DomainAddress

/-- One iteration of the component-cleaning loop of
domain/address.py validate_parsed_address (with the phone-number rule). -/
def cleanStep (raw : String) (cleaned : List (String × String))
    (entry : String × String) : List (String × String) :=
  let key := pyLower (pyStrip entry.1)
  if key ∉ allowedComponents then cleaned
  else
    let normalized := pyStrip entry.2
    if normalized = "" then cleaned
    else if noiseSearch normalized then cleaned
    else if key = "house_number" ∧ ¬hasDigit normalized then cleaned
    else if key = "house_number" ∧ is_part_of_phone_number normalized raw then cleaned
    else if key = "road" ∧ ¬hasAlpha normalized then cleaned
    else if key = "postcode" then
      match normalize_postcode normalized with
      | none => cleaned
      | some p => dictSet cleaned key p
    else dictSet cleaned key normalized

def cleanComponents (parsed : List (String × String)) (raw : String) :
    List (String × String) :=
  parsed.foldl (cleanStep raw) []

/-- validate_parsed_address of domain/address.py. -/
def validate_parsed_address (parsed : List (String × String)) (raw : String) :
    AddressValidationResult :=
  if parsed = [] then ⟨false, some "No address components", none⟩
  else
    let rawNoise := noiseSearch raw
    let cleaned := cleanComponents parsed raw
    if cleaned.length < 2 then
      ⟨false,
        some (if rawNoise then "Insufficient address detail (looks like a shipping label)"
          else "Insufficient address detail"), none⟩
    else if ¬ requiredCombinations.any
        (fun combo => combo.all (fun k => (cleaned.lookup k).isSome)) then
      ⟨false,
        some (if rawNoise then "Missing essential address parts (looks like a shipping label)"
          else "Missing essential address parts"), none⟩
    else ⟨true, none, some cleaned⟩

end DomainAddress

/-! ### src/backend/app/schemas/jobs.py data model -/

/-- Python truthiness of an optional string (None and "" are falsy). -/
def optStrTruthy : Option String → Bool
  | some s => s ≠ ""
  | none => false

/-- Python truthiness of an optional dict (None and an empty dict are falsy). -/
def optDictTruthy : Option (List (String × String)) → Bool
  | some l => l ≠ []
  | none => false

/-- AddressCandidate (schemas/jobs.py); confidence is Field-constrained to
[0, 1] by pydantic at construction, modelled here as a plain rational that
claim C9 proves always lands in [0, 1]. -/
structure AddressCandidate where
  raw_text : String
  confidence : ℚ
  parsed : Option (List (String × String))
  status : String
  message : Option String
  latitude : Option ℚ
  longitude : Option ℚ
deriving Repr, DecidableEq

/-- GeocodeResult (services/geocoding.py). -/
structure GeocodeResult where
  latitude : Option ℚ
  longitude : Option ℚ
  confidence : ℚ
  message : Option String
  resolved_label : Option String
deriving Repr, DecidableEq

/-- RouteLeg (schemas/jobs.py).  pydantic ignores unknown constructor
keywords, so the static-eta / toll keywords passed by services/routing.py are
dropped and do not appear as fields. -/
structure RouteLeg where
  order : Nat
  label : String
  latitude : ℚ
  longitude : ℚ
  eta_seconds : Option ℤ
  distance_meters : Option ℚ
  cumulative_eta_seconds : Option ℤ
  cumulative_distance_meters : Option ℚ
deriving Repr, DecidableEq

/-- Python dict.setdefault(k, v): insert only when the key is absent. -/
def dictSetdefault (d : List (String × String)) (k v : String) :
    List (String × String) :=
  if (d.lookup k).isSome then d else d ++ [(k, v)]

/-! ### _build_candidate (services/pipeline.py and
AddressExtractionService._build_candidate, services/address_service.py) -/

/-- The combined-confidence computation shared verbatim by both builders and
by JobService._process_job: clamp the OCR confidence into [0,1]; average with
a positive geocode confidence capped at 1; halve (floored at 0) when the
geocode result carries a (truthy) failure message. -/
def combinedConfidence (confidence : ℚ) (g : GeocodeResult) : ℚ :=
  let base_confidence := max 0 (min 1 confidence)
  if g.confidence > 0 then
    min 1 ((base_confidence + g.confidence) / 2)
  else if optStrTruthy g.message then
    max 0 (base_confidence * (1 / 2))
  else
    base_confidence

/-- The status computation shared by both builders and _process_job. -/
def candidateStatus (g : GeocodeResult) : String :=
  if g.latitude.isSome ∧ g.longitude.isSome then "validated"
  else if optStrTruthy g.message then "failed"
  else "pending"

/-- _build_candidate of services/pipeline.py (parsed may be None). -/
def pipeline_build_candidate (text : String) (confidence : ℚ) (g : GeocodeResult)
    (parsed : Option (List (String × String))) : AddressCandidate :=
  let status := candidateStatus g
  let parsed_payload :=
    if optDictTruthy parsed then parsed.map (fun p => p) else none
  let parsed_payload :=
    match parsed_payload with
    | some p =>
      if optStrTruthy g.resolved_label then
        some (dictSetdefault p "resolved_label" (g.resolved_label.getD ""))
      else some p
    | none => none
  { raw_text := text
    confidence := combinedConfidence confidence g
    parsed := parsed_payload
    status := status
    message := if status = "failed" then g.message else none
    latitude := g.latitude
    longitude := g.longitude }

/-- AddressExtractionService._build_candidate (parsed is a dict, always
copied into the candidate). -/
def service_build_candidate (text : String) (confidence : ℚ) (g : GeocodeResult)
    (parsed : List (String × String)) : AddressCandidate :=
  let status := candidateStatus g
  let final_parsed :=
    if optStrTruthy g.resolved_label then
      dictSetdefault parsed "resolved_label" (g.resolved_label.getD "")
    else parsed
  { raw_text := text
    confidence := combinedConfidence confidence g
    parsed := some final_parsed
    status := status
    message := if status = "failed" then g.message else none
    latitude := g.latitude
    longitude := g.longitude }

/-! ### AddressExtractionService deduplication (services/address_service.py) -/

/-- _get_loose_dedupe_key: raw text when parsed is falsy, else the
lowercased/stripped house_number|road|city|state. -/
def get_loose_dedupe_key (c : AddressCandidate) : String :=
  match c.parsed with
  | none => c.raw_text
  | some p =>
    if p = [] then c.raw_text
    else
      String.intercalate "|"
        (([p.lookup "house_number" |>.getD "", p.lookup "road" |>.getD "",
           p.lookup "city" |>.getD "", p.lookup "state" |>.getD ""]).map
          (fun comp => pyStrip (pyLower comp)))

def statusValidated (c : AddressCandidate) : Bool :=
  c.status = "validated"

/-- Python tuple comparison on (key, value) string pairs. -/
def pairLt (a b : String × String) : Bool :=
  a.1 < b.1 || (a.1 = b.1 && a.2 < b.2)

def insertPairAsc (x : String × String) :
    List (String × String) → List (String × String)
  | [] => [x]
  | y :: ys => if pairLt y x then y :: insertPairAsc x ys else x :: y :: ys

/-- sorted(...) on dict items (stable, ascending tuple order). -/
def sortPairsAsc (l : List (String × String)) : List (String × String) :=
  l.foldr insertPairAsc []

/-- str(sorted(v.parsed.items())): an injective-enough rendering of the
sorted item list; only equality between these strings is ever used, so the
Python quoting of repr is not reproduced. -/
def reprSortedItems (p : List (String × String)) : String :=
  "[" ++ String.intercalate ", "
    ((sortPairsAsc p).map (fun kv => "(" ++ kv.1 ++ ", " ++ kv.2 ++ ")")) ++ "]"

/-- The identity label used when deduplicating validated candidates:
resolved_label when truthy, else stringified sorted parsed items, else the
raw text.  (A validated candidate with parsed = None cannot be built by the
service; the raw-text fallback mirrors the falsy-dict branch.) -/
def labelOf (v : AddressCandidate) : String :=
  let lbl :=
    match v.parsed with
    | some p => p.lookup "resolved_label"
    | none => none
  if optStrTruthy lbl then lbl.getD ""
  else
    match v.parsed with
    | some p => if p ≠ [] then reprSortedItems p else v.raw_text
    | none => v.raw_text

/-- Keep the highest-confidence representative per label, scanning the
(sorted) validated list with a seen-label set. -/
def dedupeByLabel : List AddressCandidate → List String → List AddressCandidate
  | [], _ => []
  | v :: vs, seen =>
    let label := labelOf v
    if label ∈ seen then dedupeByLabel vs seen
    else v :: dedupeByLabel vs (label :: seen)

/-- Stable insertion for the descending-confidence sort. -/
def insertDescByConf (x : AddressCandidate) :
    List AddressCandidate → List AddressCandidate
  | [] => [x]
  | y :: ys =>
    if y.confidence ≤ x.confidence then x :: y :: ys else y :: insertDescByConf x ys

/-- validated.sort(key=confidence, reverse=True): stable descending sort. -/
def sortDescByConf (l : List AddressCandidate) : List AddressCandidate :=
  l.foldr insertDescByConf []

/-- max(group, key=confidence): first element attaining the maximum. -/
def maxByConf : AddressCandidate → List AddressCandidate → AddressCandidate
  | best, [] => best
  | best, c :: cs => maxByConf (if c.confidence > best.confidence then c else best) cs

/-- The per-group body of _filter_duplicates. Groups are non-empty by
construction; the empty case is unreachable. -/
def processGroup : List AddressCandidate → List AddressCandidate
  | [] => []
  | h :: t =>
    let validated := (h :: t).filter statusValidated
    match validated with
    | [] => [maxByConf h t]
    | _ :: _ => dedupeByLabel (sortDescByConf validated) []

/-- _filter_duplicates: group by the loose key (dict insertion order: keys in
first-appearance order, each group the in-order sublist with that key), then
keep deduplicated validated candidates, else the single best. -/
def filterDuplicates (candidates : List AddressCandidate) : List AddressCandidate :=
  (dedupFirst (candidates.map get_loose_dedupe_key)).flatMap
    (fun k => processGroup (candidates.filter (fun c => get_loose_dedupe_key c = k)))

/-! ### Route computation (routing/optimizer.py and services/routing.py)

Both modules filter out stops without coordinates and special-case 0 and 1
nodes (the shared prologue, routing/optimizer.py lines 33-70 =
services/routing.py lines 67-104).  routing/optimizer.py — the module every
caller imports — then builds legs either from the solver visit order or, on
solver failure, in input order; its leg loops are embedded below as
buildLegsVisit and buildLegsInputOrder.  Distance/duration matrices come
from the pluggable distance provider and are modelled as total
integer-valued functions; the TSP solver (OR-Tools, out of scope) is an
oracle returning an optional visit sequence.

services/routing.py shares the prologue but, past it, reads
matrix.static_durations and matrix.tolls (lines 124-125 before its
enumerate loop, and lines 199/201 inside _fallback_route) — fields
DistanceMatrixResult (services/distance.py) does not define — so every call
that reaches its leg loops raises AttributeError instead of returning legs.
It is therefore embedded separately, as the Except-valued
service_compute_route below. -/

def defaultLeg : RouteLeg :=
  ⟨0, "", 0, 0, none, none, none, none⟩

/-- DistanceMatrixResult (services/distance.py). -/
structure DistanceMatrixResult where
  distances : Nat → Nat → ℤ
  durations : Nat → Nat → ℤ
  provider : String
  uses_live_traffic : Bool

/-- distance_meters of a leg: 0 for the first visited node, else the matrix
entry from the previous node. -/
def prevDist (dist : Nat → Nat → ℤ) (prev : Option Nat) (idx : Nat) : ℚ :=
  match prev with
  | some p => ((dist p idx : ℤ) : ℚ)
  | none => 0

/-- eta_seconds of a leg: 0 for the first visited node, else the matrix
entry from the previous node. -/
def prevDur (dur : Nat → Nat → ℤ) (prev : Option Nat) (idx : Nat) : ℤ :=
  match prev with
  | some p => dur p idx
  | none => 0

/-- The leg-construction loop over the solver visit order (the while loop
of routing/optimizer.py compute_route, lines 111-138). -/
def buildLegsVisit (nodes : List (String × ℚ × ℚ)) (dist dur : Nat → Nat → ℤ) :
    List Nat → Option Nat → Nat → ℚ → ℤ → List RouteLeg
  | [], _, _, _, _ => []
  | idx :: rest, prev, order, cumDist, cumEta =>
    let node := nodes.getD idx ("", 0, 0)
    let distance_meters : ℚ := prevDist dist prev idx
    let eta_seconds : ℤ := prevDur dur prev idx
    let cumDist2 := cumDist + distance_meters
    let cumEta2 := cumEta + eta_seconds
    { order := order, label := node.1, latitude := node.2.1,
      longitude := node.2.2, eta_seconds := some eta_seconds,
      distance_meters := some distance_meters,
      cumulative_eta_seconds := some cumEta2,
      cumulative_distance_meters := some cumDist2 } ::
      buildLegsVisit nodes dist dur rest (some idx) (order + 1) cumDist2 cumEta2

/-- _fallback_route of routing/optimizer.py (lines 149-176): visit the
nodes in input order, leg k using the matrix entry (k-1, k). -/
def buildLegsInputOrder (dist dur : Nat → Nat → ℤ) :
    List (String × ℚ × ℚ) → Nat → ℚ → ℤ → List RouteLeg
  | [], _, _, _ => []
  | node :: rest, index, cumDist, cumEta =>
    let distance_meters : ℚ :=
      if 0 < index then ((dist (index - 1) index : ℤ) : ℚ) else 0
    let eta_seconds : ℤ := if 0 < index then dur (index - 1) index else 0
    let cumDist2 := cumDist + distance_meters
    let cumEta2 := cumEta + eta_seconds
    { order := index, label := node.1, latitude := node.2.1,
      longitude := node.2.2, eta_seconds := some eta_seconds,
      distance_meters := some distance_meters,
      cumulative_eta_seconds := some cumEta2,
      cumulative_distance_meters := some cumDist2 } ::
      buildLegsInputOrder dist dur rest (index + 1) cumDist2 cumEta2

/-- The coordinate filter at the top of both compute_route functions. -/
def coordNodes (addresses : List (String × Option ℚ × Option ℚ)) :
    List (String × ℚ × ℚ) :=
  addresses.filterMap fun a =>
    match a with
    | (label, some lat, some lon) => some (label, lat, lon)
    | _ => none

structure RouteComputationResult where
  legs : List RouteLeg
  distance_provider : String
  uses_live_traffic : Bool

/-- Oracles for a compute_route run: the distance provider and the solver
(the inline OR-Tools model of routing/optimizer.py, whose solution is read
off as a visit sequence; solve_tsp in services/routing.py). -/
structure RoutingEnv where
  getMatrix : List (String × ℚ × ℚ) → DistanceMatrixResult
  solveTsp : (Nat → Nat → ℤ) → Option (List Nat)
  routing_distance_provider : String

/-- compute_route of routing/optimizer.py. -/
def compute_route (env : RoutingEnv)
    (addresses : List (String × Option ℚ × Option ℚ)) : RouteComputationResult :=
  let nodes := coordNodes addresses
  match nodes with
  | [] => ⟨[], env.routing_distance_provider, false⟩
  | [(label, lat, lon)] =>
    ⟨[{ order := 0, label := label, latitude := lat, longitude := lon,
        eta_seconds := some 0, distance_meters := some 0,
        cumulative_eta_seconds := some 0, cumulative_distance_meters := some 0 }],
      env.routing_distance_provider, false⟩
  | _ :: _ :: _ =>
    let matrix := env.getMatrix nodes
    match env.solveTsp matrix.distances with
    | none =>
      ⟨buildLegsInputOrder matrix.distances matrix.durations nodes 0 0 0,
        matrix.provider, matrix.uses_live_traffic⟩
    | some route_indices =>
      ⟨buildLegsVisit nodes matrix.distances matrix.durations route_indices none 0 0 0,
        matrix.provider, matrix.uses_live_traffic⟩

/-- The exception raised when services/routing.py evaluates
matrix.static_durations: DistanceMatrixResult (services/distance.py)
defines only distances, durations, provider and uses_live_traffic, so the
attribute lookup fails. -/
def staticDurationsError : String :=
  "AttributeError: DistanceMatrixResult has no attribute static_durations"

/-- _fallback_route of services/routing.py (lines 181-225).  Every
iteration with index > 0 evaluates matrix.static_durations (line 199)
before appending its leg, raising AttributeError, so the loop only
completes on node lists of length at most 1; the leg appended at index 0 is
discarded when a later iteration raises (the exception propagates). -/
def service_fallback_route (matrix : DistanceMatrixResult) :
    List (String × ℚ × ℚ) → Nat → ℚ → ℤ → Except String (List RouteLeg)
  | [], _, _, _ => .ok []
  | node :: rest, index, cumDist, cumEta =>
    if 0 < index then .error staticDurationsError
    else
      let distance_meters : ℚ := 0
      let eta_seconds : ℤ := 0
      let cumDist2 := cumDist + distance_meters
      let cumEta2 := cumEta + eta_seconds
      (service_fallback_route matrix rest (index + 1) cumDist2 cumEta2).map
        (fun legs =>
          { order := index, label := node.1, latitude := node.2.1,
            longitude := node.2.2, eta_seconds := some eta_seconds,
            distance_meters := some distance_meters,
            cumulative_eta_seconds := some cumEta2,
            cumulative_distance_meters := some cumDist2 } :: legs)

/-- compute_route of services/routing.py.  The coordinate filter and the
0- and 1-node early returns (lines 67-104) coincide with
routing/optimizer.py; with 2 or more retained nodes the solver path reads
matrix.static_durations (line 124) before its enumerate loop and raises
AttributeError there, and the fallback path raises inside _fallback_route
(line 199) at its second iteration. -/
def service_compute_route (env : RoutingEnv)
    (addresses : List (String × Option ℚ × Option ℚ)) :
    Except String RouteComputationResult :=
  let nodes := coordNodes addresses
  match nodes with
  | [] => .ok ⟨[], env.routing_distance_provider, false⟩
  | [(label, lat, lon)] =>
    .ok ⟨[{ order := 0, label := label, latitude := lat, longitude := lon,
            eta_seconds := some 0, distance_meters := some 0,
            cumulative_eta_seconds := some 0,
            cumulative_distance_meters := some 0 }],
      env.routing_distance_provider, false⟩
  | _ :: _ :: _ =>
    let matrix := env.getMatrix nodes
    match env.solveTsp matrix.distances with
    | none =>
      (service_fallback_route matrix nodes 0 0 0).map
        (fun legs => ⟨legs, matrix.provider, matrix.uses_live_traffic⟩)
    | some _ => .error staticDurationsError

/-- A concrete routing environment used by the closed witnesses. -/
def sampleRoutingEnv : RoutingEnv :=
  { getMatrix := fun _ => ⟨fun _ _ => 5, fun _ _ => 60, "haversine", false⟩
    solveTsp := fun _ => some [0, 1]
    routing_distance_provider := "haversine" }

/-- A routing environment whose solver fails, exercising the fallback. -/
def sampleFallbackEnv : RoutingEnv :=
  { getMatrix := fun _ => ⟨fun _ _ => 7, fun _ _ => 30, "haversine", false⟩
    solveTsp := fun _ => none
    routing_distance_provider := "haversine" }

/-! ### Job persistence (services/models.py and services/repository.py)

The SQLite jobs table is modelled as an insertion-ordered association list
keyed by the job-id string (INSERT .. ON CONFLICT(job_id) DO UPDATE =
dictSet).  JSON (de)serialization of the nested candidate/leg/error lists and
the ISO-8601 round-trip of datetimes are modelled structurally; pydantic
re-validation on load is kept: a stored candidate confidence outside [0, 1]
makes the load fail, as AddressCandidate(**item) would raise. -/

/-- JobRecord (services/models.py).  Timestamps are rationals (Python
datetimes); the job id is its string form. -/
structure JobRecord where
  job_id : String
  status : String
  created_at : ℚ
  updated_at : ℚ
  image_path : String
  origin : Option (Option ℚ × Option ℚ)
  origin_address : Option String
  addresses : List AddressCandidate
  route : List RouteLeg
  errors : List String
  total_distance_meters : Option ℚ
  total_eta_seconds : Option ℤ
deriving Repr, DecidableEq

/-- One row of the jobs table (services/repository.py schema). -/
structure DbRow where
  job_id : String
  status : String
  created_at : ℚ
  updated_at : ℚ
  image_path : String
  origin_lat : Option ℚ
  origin_lon : Option ℚ
  addresses_json : List AddressCandidate
  route_json : List RouteLeg
  errors_json : List String
deriving Repr, DecidableEq

def JobStore : Type := List (String × DbRow)

/-- JobRepository.upsert: build the row payload and insert-or-replace by
job_id. -/
def repository_upsert (store : JobStore) (record : JobRecord) : JobStore :=
  let payload : DbRow :=
    { job_id := record.job_id
      status := record.status
      created_at := record.created_at
      updated_at := record.updated_at
      image_path := record.image_path
      origin_lat := match record.origin with | some o => o.1 | none => none
      origin_lon := match record.origin with | some o => o.2 | none => none
      addresses_json := record.addresses
      route_json := record.route
      errors_json := record.errors }
  dictSet store record.job_id payload

/-- AddressCandidate(**item): pydantic re-validates the confidence bound. -/
def decodeCandidate (c : AddressCandidate) : Option AddressCandidate :=
  if 0 ≤ c.confidence ∧ c.confidence ≤ 1 then some c else none

/-- The list comprehension over addresses_json; the first validation error
aborts the load. -/
def decodeCandidates : List AddressCandidate → Option (List AddressCandidate)
  | [] => some []
  | c :: cs =>
    match decodeCandidate c with
    | none => none
    | some c2 =>
      match decodeCandidates cs with
      | none => none
      | some rest => some (c2 :: rest)

/-- JobRepository._row_to_record. -/
def row_to_record (row : DbRow) : Option JobRecord :=
  match decodeCandidates row.addresses_json with
  | none => none
  | some addresses =>
    some
      { job_id := row.job_id
        status := row.status
        created_at := row.created_at
        updated_at := row.updated_at
        image_path := row.image_path
        origin :=
          match row.origin_lat, row.origin_lon with
          | some la, some lo => some (some la, some lo)
          | _, _ => none
        origin_address := none
        addresses := addresses
        route := row.route_json
        errors := row.errors_json
        total_distance_meters := none
        total_eta_seconds := none }

/-- JobRepository.get: ok none when the row is missing, error when pydantic
rejects a stored candidate, else the decoded record. -/
def repository_get (store : JobStore) (job_id : String) :
    Except String (Option JobRecord) :=
  match List.lookup job_id store with
  | none => .ok none
  | some row =>
    match row_to_record row with
    | none => .error "validation error while decoding stored addresses"
    | some rec => .ok (some rec)

/-- A concrete record for the C8 witness. -/
def sampleJobRecord : JobRecord :=
  { job_id := "j-1"
    status := "completed"
    created_at := 1
    updated_at := 2
    image_path := "/tmp/img.png"
    origin := some (some 1, some 2)
    origin_address := none
    addresses := [⟨"123 Main St", 9 / 10, some [("house_number", "123")],
      "validated", none, some 1, some 2⟩]
    route := [⟨0, "123 Main St", 1, 2, some 0, some 0, some 0, some 0⟩]
    errors := []
    total_distance_meters := none
    total_eta_seconds := none }

/-! ### Geocoding (services/geocoding.py)

The geopy call is an oracle indexed by query text and attempt number, so
that what a retry would have returned is expressible; the process-wide TTL
cache and the sequence of outbound calls are explicit state.  Raw provider
payloads are a small JSON-like value type; float() over a non-numeric raw
value is modelled as raising (caught, yielding the 0.5 default). -/

/-- dict.fromkeys first-occurrence deduplication with an explicit seen set
(structurally recursive; used where closed witnesses must evaluate). -/
def fromkeysFirstAux (seen : List String) : List String → List String
  | [] => []
  | x :: xs =>
    if x ∈ seen then fromkeysFirstAux seen xs
    else x :: fromkeysFirstAux (x :: seen) xs

def fromkeysFirst (l : List String) : List String :=
  fromkeysFirstAux [] l

inductive RV where
  | str : String → RV
  | num : ℚ → RV
  | dict : List (String × RV) → RV
  | null : RV

def lookupRV : List (String × RV) → String → Option RV
  | [], _ => none
  | (k, v) :: rest, key => if k = key then some v else lookupRV rest key

/-- geopy Location: coordinates, canonical address, raw provider payload. -/
structure Location where
  latitude : Option ℚ
  longitude : Option ℚ
  address : Option String
  raw : List (String × RV)

def clamp_confidence (value : ℚ) : ℚ :=
  max 0 (min 1 value)

/-- float(x) on a raw JSON value: numbers convert, anything else raises
(the caller catches TypeError/ValueError and falls back to 0.5). -/
def rvToFloat : RV → Option ℚ
  | RV.num q => some q
  | _ => none

/-- _extract_confidence: provider-specific confidence semantics, each
normalized into [0,1]; missing or unusable signal defaults to 0.5. -/
def extract_confidence (provider : String) (raw : List (String × RV)) : ℚ :=
  if provider = "nominatim" then
    match lookupRV raw "importance" with
    | some RV.null => 1 / 2
    | some v =>
      match rvToFloat v with
      | some q => clamp_confidence q
      | none => 1 / 2
    | none => 1 / 2
  else if provider = "google" then
    match lookupRV raw "geometry" with
    | some (RV.dict geometry) =>
      match lookupRV geometry "location_type" with
      | some (RV.str lt) =>
        if lt = "ROOFTOP" then 1
        else if lt = "RANGE_INTERPOLATED" then 7 / 10
        else if lt = "GEOMETRIC_CENTER" then 6 / 10
        else if lt = "APPROXIMATE" then 4 / 10
        else 1 / 2
      | _ => 1 / 2
    | _ => 1 / 2
  else if provider = "bing" then
    match lookupRV raw "confidence" with
    | some (RV.str s) =>
      let lowered := pyLower s
      if lowered = "high" then 9 / 10
      else if lowered = "medium" then 6 / 10
      else if lowered = "low" then 3 / 10
      else 1 / 2
    | _ => 1 / 2
  else if provider = "azure" then
    match lookupRV raw "score" with
    | some (RV.num q) => clamp_confidence q
    | _ => 1 / 2
  else if provider = "mapbox" then
    match lookupRV raw "relevance" with
    | some (RV.num q) => clamp_confidence q
    | _ => 1 / 2
  else 1 / 2

/-- _base_zip: re.fullmatch (\d{5})(?:[-\s]?(\d{4}))? on the stripped
postcode, returning the 5-digit base. -/
def base_zip (postcode : String) : Option String :=
  let l := (pyStrip postcode).toList
  if l.length = 5 ∧ l.all Char.isDigit then some (String.mk l)
  else if l.length = 9 ∧ l.all Char.isDigit then some (String.mk (l.take 5))
  else if l.length = 10 ∧ (l.take 5).all Char.isDigit ∧
      (l.getD 5 'x' = '-' ∨ isPySpace (l.getD 5 'x')) ∧
      (l.drop 6).all Char.isDigit then
    some (String.mk (l.take 5))
  else none

def composePriorities : List String :=
  ["house_number", "road", "unit", "level", "city", "suburb", "state",
   "postcode", "country"]

/-- build_query inside _compose_queries. -/
def build_query (components : List (String × String)) : String :=
  let parts := composePriorities.filterMap fun key =>
    match components.lookup key with
    | some v => if pyStrip v ≠ "" then some v else none
    | none => none
  let parts :=
    if parts = [] then
      components.filterMap fun kv => if pyStrip kv.2 ≠ "" then some kv.2 else none
    else parts
  let deduped := fromkeysFirst ((parts.map pyStrip).filter (fun p => p ≠ ""))
  String.intercalate ", " deduped

/-- _compose_queries: primary priority-ordered query, base-ZIP variant,
postcode-free variant, raw text; deduplicated preserving order. -/
def compose_queries (parsed : List (String × String)) (raw_text : String) :
    List String :=
  let normalized := parsed.filterMap fun kv =>
    if pyStrip kv.2 ≠ "" then some (kv.1, pyStrip kv.2) else none
  let queries : List String := []
  let primary := build_query normalized
  let queries := if primary ≠ "" then queries ++ [primary] else queries
  let queries :=
    match normalized.lookup "postcode" with
    | some postcode =>
      if postcode ≠ "" then
        let queries :=
          match base_zip postcode with
          | some bz =>
            if bz ≠ postcode then
              let zip_components := dictSet normalized "postcode" bz
              let alt := build_query zip_components
              if alt ≠ "" then queries ++ [alt] else queries
            else queries
          | none => queries
        let zipless := normalized.filter fun kv => kv.1 ≠ "postcode"
        let alt := build_query zipless
        if alt ≠ "" then queries ++ [alt] else queries
      else queries
    | none => queries
  let queries :=
    if pyStrip raw_text ≠ "" then queries ++ [pyStrip raw_text] else queries
  let deduped_queries := fromkeysFirst (queries.filter (fun q => q ≠ ""))
  if deduped_queries = [] then [pyStrip raw_text] else deduped_queries

/-- Outcome of one call to the external geopy geocoder. -/
inductive GeoCallOutcome where
  | raiseConfig : String → GeoCallOutcome
  | raiseQuota : GeoCallOutcome
  | raiseTimeout : GeoCallOutcome
  | raiseService : String → GeoCallOutcome
  | raiseUnexpected : String → GeoCallOutcome
  | found : Option Location → GeoCallOutcome

/-- Geocoding oracles: the configured provider and the external call,
indexed by query text and attempt number (0 = first call for that query). -/
structure GeoEnv where
  geocoder_provider : String
  call : String → Nat → GeoCallOutcome

/-- _fetch: translate geocoder exceptions and responses into GeocodeResult;
only an exception outside the handled geopy families escapes (as
Except.error, caught by geocode_address). -/
def fetch (env : GeoEnv) (query : String) (attempt : Nat) :
    Except String GeocodeResult :=
  match env.call query attempt with
  | .raiseUnexpected msg => .error msg
  | .raiseConfig msg => .ok ⟨none, none, 0, some msg, none⟩
  | .raiseQuota => .ok ⟨none, none, 0, some "Geocoding quota exceeded", none⟩
  | .raiseTimeout => .ok ⟨none, none, 0, some "Geocoding timed out", none⟩
  | .raiseService msg => .ok ⟨none, none, 0, some msg, none⟩
  | .found none => .ok ⟨none, none, 0, some "No geocoding candidates", none⟩
  | .found (some loc) =>
    match loc.latitude, loc.longitude with
    | some lat, some lon =>
      let resolved_label := loc.address
      let resolved_label :=
        if optStrTruthy resolved_label then resolved_label
        else
          match lookupRV loc.raw "display_name" with
          | some (RV.str s) => some s
          | _ => resolved_label
      .ok ⟨some lat, some lon, extract_confidence env.geocoder_provider loc.raw,
        none, resolved_label⟩
    | _, _ => .ok ⟨none, none, 0, some "Invalid geocoder response", none⟩

/-- Mutable geocoding state: the process-wide TTL cache (within one TTL
window) and the ordered log of outbound provider calls. -/
structure GeoState where
  cache : List (String × GeocodeResult)
  log : List String

def countOcc (l : List String) (q : String) : Nat :=
  (l.filter (fun x => x = q)).length

/-- The per-query loop of geocode_address. -/
def geocodeLoop (env : GeoEnv) :
    List String → Option GeocodeResult → GeoState → GeocodeResult × GeoState
  | [], last, st =>
    (last.getD ⟨none, none, 0, some "No geocoding candidates", none⟩, st)
  | q :: rest, last, st =>
    if q = "" then geocodeLoop env rest last st
    else
      match st.cache.lookup q with
      | some cached => (cached, st)
      | none =>
        let attempt := countOcc st.log q
        let st2 : GeoState := ⟨st.cache, st.log ++ [q]⟩
        match fetch env q attempt with
        | .error msg =>
          geocodeLoop env rest (some ⟨none, none, 0, some msg, none⟩) st2
        | .ok result =>
          let st3 : GeoState := ⟨dictSet st2.cache q result, st2.log⟩
          if result.latitude.isSome ∧ result.longitude.isSome then (result, st3)
          else geocodeLoop env rest (some result) st3

/-- geocode_address. -/
def geocode_address (env : GeoEnv) (parsed : List (String × String))
    (raw_text : String) (st : GeoState) : GeocodeResult × GeoState :=
  if parsed = [] then
    (⟨none, none, 0, some "No address components available", none⟩, st)
  else geocodeLoop env (compose_queries parsed raw_text) none st

/-- A provider that 429s the first attempt of every query and would succeed
on a retry — used by the C2 theorems. -/
def sampleQuotaEnv : GeoEnv :=
  { geocoder_provider := "nominatim"
    call := fun _ n =>
      if n = 0 then .raiseQuota
      else .found (some ⟨some 1, some 2, some "1 Main St", []⟩) }

/-! ### Job orchestration (services/job_service.py _process_job) and the
single-image extraction pipeline (services/address_service.py)

The injected callables of JobService/AddressExtractionService (OCR runner,
address parser, geocoder, router) and repository persistence are oracles;
a raising call is an Except.error.  Persistence is indexed by the number of
upsert calls already made in the run, so a failure while persisting one
record is distinguishable from a failure persisting the next.  The wall
clock is a single observed value (timestamps never feed back into control
flow). -/

structure JobEnv where
  ocr : String → Except String (List (String × ℚ))
  parseAddr : String → Except String (Option (List (String × String)))
  geocoder : List (String × String) → String → Except String GeocodeResult
  router : List (String × Option ℚ × Option ℚ) → Except String (List RouteLeg)
  persist : Nat → Option String
  now : ℚ

structure JobState where
  jobs : List (String × JobRecord)
  persisted : List JobRecord
  persistCalls : Nat
deriving Repr, DecidableEq

/-- self._persist(record): repository.upsert may raise; the attempt counter
advances either way, the persisted log only on success. -/
def doPersist (env : JobEnv) (st : JobState) (record : JobRecord) :
    Option String × JobState :=
  match env.persist st.persistCalls with
  | some msg => (some msg, { st with persistCalls := st.persistCalls + 1 })
  | none =>
    (none, { st with
        persistCalls := st.persistCalls + 1
        persisted := st.persisted ++ [record] })

def processingRecord (env : JobEnv) (rec : JobRecord) : JobRecord :=
  { rec with status := "processing", updated_at := env.now }

def failedRecord (env : JobEnv) (rec : JobRecord) (e : String) : JobRecord :=
  { rec with
    errors := rec.errors ++ [e]
    status := "failed"
    updated_at := env.now }

/-- One iteration of the per-OCR-line loop in _process_job: a parser
exception is caught and becomes the geocode-skip message; a geocoder
exception propagates to the try boundary.  The candidate fields are computed
exactly as in pipeline_build_candidate (the inline code is identical). -/
def processLine (env : JobEnv) (text : String) (confidence : ℚ) :
    Except String AddressCandidate :=
  match env.parseAddr text with
  | .error e =>
    .ok (pipeline_build_candidate text confidence
      ⟨none, none, 0, some (if e ≠ "" then e else "Unrecognized address"), none⟩
      none)
  | .ok parsed =>
    if optDictTruthy parsed then
      match env.geocoder (parsed.getD []) text with
      | .error ge => .error ge
      | .ok g => .ok (pipeline_build_candidate text confidence g parsed)
    else
      .ok (pipeline_build_candidate text confidence
        ⟨none, none, 0, some "Unrecognized address", none⟩ parsed)

def buildAddresses (env : JobEnv) :
    List (String × ℚ) → Except String (List AddressCandidate)
  | [] => .ok []
  | (text, conf) :: rest =>
    match processLine env text conf with
    | .error e => .error e
    | .ok c =>
      match buildAddresses env rest with
      | .error e => .error e
      | .ok cs => .ok (c :: cs)

/-- The route-input list: the origin first when present (coordinates taken
as stored, possibly None), then every candidate with both coordinates. -/
def routeInputs (record : JobRecord) (addresses : List AddressCandidate) :
    List (String × Option ℚ × Option ℚ) :=
  (match record.origin with
   | some o => [("Origin", o.1, o.2)]
   | none => []) ++
  ((addresses.filter fun c => c.latitude.isSome ∧ c.longitude.isSome).map
    fun c => (c.raw_text, c.latitude, c.longitude))

/-- The try block of _process_job: OCR, the per-line loop, route
computation, the completed-record update, and its persist.  Returns the
raised message (if any) together with the state at that point. -/
def tryBlock (env : JobEnv) (st : JobState) (job_id : String)
    (record : JobRecord) : Option String × JobState :=
  match env.ocr record.image_path with
  | .error e => (some e, st)
  | .ok ocr_results =>
    match buildAddresses env ocr_results with
    | .error e => (some e, st)
    | .ok addresses =>
      match env.router (routeInputs record addresses) with
      | .error e => (some e, st)
      | .ok route =>
        match st.jobs.lookup job_id with
        | none => (some "KeyError", st)
        | some recNow =>
          let recDone := { recNow with
            addresses := addresses
            route := route
            status := "completed"
            updated_at := env.now }
          let st2 : JobState := { st with jobs := dictSet st.jobs job_id recDone }
          doPersist env st2 recDone

/-- The except handler of _process_job: append the message, mark failed,
persist; a failure of that persist (or a missing record) propagates. -/
def exceptHandler (env : JobEnv) (st : JobState) (job_id : String) (e : String) :
    Except String JobState :=
  match st.jobs.lookup job_id with
  | none => .error "KeyError"
  | some rec =>
    let rec2 := failedRecord env rec e
    let st2 : JobState := { st with jobs := dictSet st.jobs job_id rec2 }
    match doPersist env st2 rec2 with
    | (some msg, _) => .error msg
    | (none, st3) => .ok st3

/-- JobService._process_job. -/
def processJob (env : JobEnv) (st : JobState) (job_id : String) :
    Except String JobState :=
  match st.jobs.lookup job_id with
  | none => .ok st
  | some record0 =>
    let record1 := processingRecord env record0
    let st1 : JobState := { st with jobs := dictSet st.jobs job_id record1 }
    match doPersist env st1 record1 with
    | (some msg, _) => .error msg
    | (none, st2) =>
      match tryBlock env st2 job_id record1 with
      | (none, st3) => .ok st3
      | (some e, st3) => exceptHandler env st3 job_id e

/-! #### AddressExtractionService._process_with_sliding_window -/

/-- _get_dedupe_key of AddressExtractionService. -/
def service_dedupe_key (c : AddressCandidate) : String :=
  match c.parsed with
  | some p =>
    if p ≠ [] then
      match p.lookup "resolved_label" with
      | some lbl => lbl
      | none => reprSortedItems p
    else c.raw_text
  | none => c.raw_text

/-- _process_candidate: parse (exceptions caught → None), validate with the
default validator (domain/address.py via app/services/parsing), geocode
(exceptions propagate), build. -/
def service_process_candidate (env : JobEnv) (text : String) (confidence : ℚ) :
    Except String (Option AddressCandidate) :=
  match env.parseAddr text with
  | .error _ => .ok none
  | .ok none => .ok none
  | .ok (some parsed) =>
    if parsed = [] then .ok none
    else
      let validation := DomainAddress.validate_parsed_address parsed text
      if validation.is_valid = false then .ok none
      else
        let parsed2 :=
          match validation.components with
          | some comps => if comps ≠ [] then comps else parsed
          | none => parsed
        match env.geocoder parsed2 text with
        | .error ge => .error ge
        | .ok g => .ok (some (service_build_candidate text confidence g parsed2))

/-- seen_parsed[key] = candidate  when absent or strictly higher confidence. -/
def seenInsert (seen : List (String × AddressCandidate)) (cand : AddressCandidate) :
    List (String × AddressCandidate) :=
  let key := service_dedupe_key cand
  match seen.lookup key with
  | none => seen ++ [(key, cand)]
  | some existing =>
    if cand.confidence > existing.confidence then dictSet seen key cand else seen

def slidingLoop (env : JobEnv) :
    List (String × ℚ) → List (String × AddressCandidate) →
    Except String (List (String × AddressCandidate))
  | [], seen => .ok seen
  | (text, conf) :: rest, seen =>
    match service_process_candidate env text conf with
    | .error e => .error e
    | .ok none => slidingLoop env rest seen
    | .ok (some cand) => slidingLoop env rest (seenInsert seen cand)

/-- _process_with_sliding_window: OCR, sliding-window candidates (domain
generator, defaults 2..5), per-candidate parse/validate/geocode/build with
first-pass dedup, then _filter_duplicates. -/
def service_process_sliding (env : JobEnv) (image_path : String) :
    Except String (List AddressCandidate) :=
  match env.ocr image_path with
  | .error e => .error e
  | .ok ocr_results =>
    match slidingLoop env (generate_sliding_window_candidates 2 5 ocr_results) [] with
    | .error e => .error e
    | .ok seen => .ok (filterDuplicates (seen.map Prod.snd))

/-! #### Concrete environments and states for the job-service claims -/

def blankRecord : JobRecord :=
  { job_id := "job-1", status := "pending", created_at := 0, updated_at := 0,
    image_path := "/img.png", origin := none, origin_address := none,
    addresses := [], route := [], errors := [],
    total_distance_meters := none, total_eta_seconds := none }

def initialJobState : JobState :=
  { jobs := [("job-1", blankRecord)], persisted := [], persistCalls := 0 }

/-- Parser returns no components for any line; two OCR lines. -/
def sampleUnparsedEnv : JobEnv :=
  { ocr := fun _ => .ok [("x", 1), ("y", 1)]
    parseAddr := fun _ => .ok none
    geocoder := fun _ _ => .ok ⟨none, none, 0, none, none⟩
    router := fun _ => .ok []
    persist := fun _ => none
    now := 0 }

/-- Parser raises on every line. -/
def sampleParserRaisesEnv : JobEnv :=
  { ocr := fun _ => .ok [("x", 9 / 10)]
    parseAddr := fun _ => .error "boom"
    geocoder := fun _ _ => .ok ⟨none, none, 0, none, none⟩
    router := fun _ => .ok []
    persist := fun _ => none
    now := 0 }

/-- OCR raises. -/
def sampleOcrFailEnv : JobEnv :=
  { ocr := fun _ => .error "disk io error"
    parseAddr := fun _ => .ok none
    geocoder := fun _ _ => .ok ⟨none, none, 0, none, none⟩
    router := fun _ => .ok []
    persist := fun _ => none
    now := 0 }

/-- The prefix-sum invariant of a leg list: every leg's
cumulative_distance_meters is the sum of distance_meters over legs 0..k. -/
def cumulativeOk (legs : List RouteLeg) : Prop :=
  ∀ k, k < legs.length →
    (legs.getD k defaultLeg).cumulative_distance_meters =
      some (((legs.take (k + 1)).map (fun l => l.distance_meters.getD 0)).sum)

/-! ### Generic accumulation-loop lemmas -/

theorem foldl_append_chunks {α β : Type} (g : α → List β) :
    ∀ (l : List α) (init : List β),
      l.foldl (fun acc i => acc ++ g i) init = init ++ l.flatMap g := by
  intro l
  induction l with
  | nil => intro init; simp
  | cons x xs ih =>
    intro init
    simp [List.foldl_cons, ih (init ++ g x), List.append_assoc]

theorem foldl_append_singleton {α β : Type} (f : α → β) :
    ∀ (l : List α) (init : List β),
      l.foldl (fun acc i => acc ++ [f i]) init = init ++ l.map f := by
  intro l
  induction l with
  | nil => intro init; simp
  | cons x xs ih =>
    intro init
    simp [List.foldl_cons, ih (init ++ [f x]), List.append_assoc]

theorem range_pred_eq_pyRangeLen_two (n : Nat) :
    List.range (n - 1) = pyRangeLen n 2 := by
  unfold pyRangeLen
  by_cases h : 2 ≤ n
  · rw [if_pos h]
    congr 1
    omega
  · rw [if_neg h]
    have : n - 1 = 0 := by omega
    simp [this]

theorem range_sub_two_eq_pyRangeLen_three (n : Nat) :
    List.range (n - 2) = pyRangeLen n 3 := by
  unfold pyRangeLen
  by_cases h : 3 ≤ n
  · rw [if_pos h]
    congr 1
    omega
  · rw [if_neg h]
    have : n - 2 = 0 := by omega
    simp [this]

theorem ocrNth_eq_getElem {l : List (String × ℚ)} {i : Nat} (h : i < l.length) :
    ocrNth l i = l[i] := by
  simp [ocrNth, List.getD_eq_getElem?_getD, List.getElem?_eq_getElem h]

theorem joinSpace_pair (a b : String) : joinSpace [a, b] = a ++ " " ++ b := rfl

theorem joinSpace_triple (a b c : String) :
    joinSpace [a, b, c] = a ++ " " ++ b ++ " " ++ c := rfl

theorem drop_take_two_of_lt {l : List (String × ℚ)} {i : Nat} (h : i + 1 < l.length) :
    (l.drop i).take 2 = [ocrNth l i, ocrNth l (i + 1)] := by
  have hi : i < l.length := Nat.lt_of_succ_lt h
  rw [List.drop_eq_getElem_cons hi, List.take_succ_cons,
    List.drop_eq_getElem_cons h, List.take_succ_cons, List.take_zero,
    ocrNth_eq_getElem hi, ocrNth_eq_getElem h]

theorem drop_take_three_of_lt {l : List (String × ℚ)} {i : Nat} (h : i + 2 < l.length) :
    (l.drop i).take 3 = [ocrNth l i, ocrNth l (i + 1), ocrNth l (i + 2)] := by
  have h1 : i + 1 < l.length := by omega
  have hi : i < l.length := by omega
  rw [List.drop_eq_getElem_cons hi, List.take_succ_cons,
    List.drop_eq_getElem_cons h1, List.take_succ_cons,
    List.drop_eq_getElem_cons h, List.take_succ_cons, List.take_zero,
    ocrNth_eq_getElem hi, ocrNth_eq_getElem h1, ocrNth_eq_getElem h]

theorem pipeline_window_two_eq (ocr : List (String × ℚ)) (i : Nat)
    (h : i ∈ List.range (ocr.length - 1)) :
    ((ocrNth ocr i).1 ++ " " ++ (ocrNth ocr (i + 1)).1,
      ((ocrNth ocr i).2 + (ocrNth ocr (i + 1)).2) / 2) = windowCandidate ocr 2 i := by
  have hlt : i + 1 < ocr.length := by
    have := List.mem_range.mp h
    omega
  unfold windowCandidate
  rw [drop_take_two_of_lt hlt]
  simp only [List.map_cons, List.map_nil, joinSpace_pair, ratSum,
    List.foldl_cons, List.foldl_nil]
  rw [Prod.mk.injEq]
  constructor
  · rfl
  · ring

theorem pipeline_window_three_eq (ocr : List (String × ℚ)) (i : Nat)
    (h : i ∈ List.range (ocr.length - 2)) :
    ((ocrNth ocr i).1 ++ " " ++ (ocrNth ocr (i + 1)).1 ++ " " ++ (ocrNth ocr (i + 2)).1,
      ((ocrNth ocr i).2 + (ocrNth ocr (i + 1)).2 + (ocrNth ocr (i + 2)).2) / 3) =
      windowCandidate ocr 3 i := by
  have hlt : i + 2 < ocr.length := by
    have := List.mem_range.mp h
    omega
  unfold windowCandidate
  rw [drop_take_three_of_lt hlt]
  simp only [List.map_cons, List.map_nil, joinSpace_triple, ratSum,
    List.foldl_cons, List.foldl_nil]
  rw [Prod.mk.injEq]
  constructor
  · rfl
  · ring

/-! ### Lemmas about dict assignment and the validators -/

theorem lookup_cons_self {α : Type} (k : String) (v : α) (rest : List (String × α)) :
    List.lookup k ((k, v) :: rest) = some v := by
  simp [List.lookup]

theorem lookup_cons_ne {α : Type} {k k' : String} (h : k' ≠ k) (v : α)
    (rest : List (String × α)) :
    List.lookup k' ((k, v) :: rest) = List.lookup k' rest := by
  have hb : (k' == k) = false := by simp [h]
  simp [List.lookup, hb]

theorem lookup_map_replace_self {α : Type} (k : String) (v : α) :
    ∀ d : List (String × α), (d.lookup k).isSome →
      (d.map (fun p => if p.1 = k then (k, v) else p)).lookup k = some v := by
  intro d
  induction d with
  | nil => intro h; simp [List.lookup] at h
  | cons p rest ih =>
    intro h
    obtain ⟨a, b⟩ := p
    by_cases hp : a = k
    · subst hp
      simp only [List.map_cons, if_true]
      exact lookup_cons_self _ v _
    · have hk : k ≠ a := fun he => hp he.symm
      have h' : (rest.lookup k).isSome := by
        rwa [lookup_cons_ne hk] at h
      simp only [List.map_cons, if_neg hp]
      rw [lookup_cons_ne hk]
      exact ih h'

theorem lookup_append_single_self {α : Type} (k : String) (v : α) :
    ∀ d : List (String × α), d.lookup k = none →
      (d ++ [(k, v)]).lookup k = some v := by
  intro d
  induction d with
  | nil => intro _; exact lookup_cons_self k v []
  | cons p rest ih =>
    intro h
    obtain ⟨a, b⟩ := p
    by_cases hp : k = a
    · subst hp
      rw [lookup_cons_self] at h
      exact absurd h (by simp)
    · rw [lookup_cons_ne hp] at h
      simpa [List.cons_append, lookup_cons_ne hp] using ih h

theorem lookup_dictSet_self {α : Type} (d : List (String × α)) (k : String) (v : α) :
    (dictSet d k v).lookup k = some v := by
  unfold dictSet
  by_cases h : (d.lookup k).isSome
  · rw [if_pos h]
    exact lookup_map_replace_self k v d h
  · rw [if_neg h]
    exact lookup_append_single_self k v d (by
      rw [← Option.not_isSome_iff_eq_none]
      simpa using h)

theorem lookup_map_replace_ne {α : Type} (k : String) (v : α) (k' : String) (h : k' ≠ k) :
    ∀ d : List (String × α),
      (d.map (fun p => if p.1 = k then (k, v) else p)).lookup k' = d.lookup k' := by
  intro d
  induction d with
  | nil => simp
  | cons p rest ih =>
    obtain ⟨a, b⟩ := p
    by_cases hp : a = k
    · subst hp
      simp only [List.map_cons, if_true]
      rw [lookup_cons_ne h, lookup_cons_ne h]
      exact ih
    · by_cases hk : k' = a
      · subst hk
        simp only [List.map_cons, if_neg hp]
        rw [lookup_cons_self, lookup_cons_self]
      · simp only [List.map_cons, if_neg hp]
        rw [lookup_cons_ne hk, lookup_cons_ne hk]
        exact ih

theorem lookup_append_single_ne {α : Type} (k : String) (v : α) (k' : String) (h : k' ≠ k) :
    ∀ d : List (String × α), (d ++ [(k, v)]).lookup k' = d.lookup k' := by
  intro d
  induction d with
  | nil => simp [lookup_cons_ne h]
  | cons p rest ih =>
    obtain ⟨a, b⟩ := p
    by_cases hk : k' = a
    · subst hk
      simp [List.cons_append, lookup_cons_self]
    · simpa [List.cons_append, lookup_cons_ne hk] using ih

theorem lookup_dictSet_ne {α : Type} (d : List (String × α)) (k : String) (v : α)
    (k' : String) (h : k' ≠ k) : (dictSet d k v).lookup k' = d.lookup k' := by
  unfold dictSet
  by_cases hs : (d.lookup k).isSome
  · rw [if_pos hs]
    exact lookup_map_replace_ne k v k' h d
  · rw [if_neg hs]
    exact lookup_append_single_ne k v k' h d

theorem is_part_false_of_no_phone {raw : String} (h : phoneFound raw = false)
    (v : String) : is_part_of_phone_number v raw = false := by
  simp [is_part_of_phone_number, h]

theorem wholeWord_of_not_part {raw v : String} (hph : phoneFound raw = true)
    (h : is_part_of_phone_number v raw = false) :
    wholeWord v (phoneSub raw) = true := by
  unfold is_part_of_phone_number at h
  rw [hph] at h
  simpa using h

theorem foldl_congr_fun {α β : Type} {f g : β → α → β}
    (h : ∀ acc e, f acc e = g acc e) :
    ∀ (l : List α) (acc : β), l.foldl f acc = l.foldl g acc := by
  intro l
  induction l with
  | nil => intro acc; rfl
  | cons e rest ih => intro acc; simp only [List.foldl_cons, h, ih]

theorem domain_cleanStep_house_invariant (raw : String) (hph : phoneFound raw = true)
    (acc : List (String × String)) (e : String × String)
    (hacc : ∀ hv, acc.lookup "house_number" = some hv →
      wholeWord hv (phoneSub raw) = true) :
    ∀ hv, (DomainAddress.cleanStep raw acc e).lookup "house_number" = some hv →
      wholeWord hv (phoneSub raw) = true := by
  intro hv hl
  simp only [DomainAddress.cleanStep] at hl
  split at hl
  · exact hacc hv hl
  · split at hl
    · exact hacc hv hl
    · split at hl
      · exact hacc hv hl
      · split at hl
        · exact hacc hv hl
        · split at hl
          · exact hacc hv hl
          · split at hl
            · exact hacc hv hl
            · split at hl
              · -- key = "postcode": the written key is not house_number
                rename_i hpost
                split at hl
                · exact hacc hv hl
                · rw [lookup_dictSet_ne] at hl
                  · exact hacc hv hl
                  · rw [hpost]
                    decide
              · -- plain write cleaned[key] = normalized
                rename_i hnotdigit hnotpart hnotroad hnotpost
                by_cases hkh : pyLower (pyStrip e.1) = "house_number"
                · rw [hkh, lookup_dictSet_self] at hl
                  have hveq : hv = pyStrip e.2 := by
                    injection hl with h'
                    exact h'.symm
                  subst hveq
                  have hpart : is_part_of_phone_number (pyStrip e.2) raw = false := by
                    by_contra hc
                    exact hnotpart ⟨hkh, by simpa using hc⟩
                  exact wholeWord_of_not_part hph hpart
                · rw [lookup_dictSet_ne] at hl
                  · exact hacc hv hl
                  · exact fun he => hkh he.symm

theorem domain_clean_house_whole_word (raw : String) (hph : phoneFound raw = true) :
    ∀ (parsed : List (String × String)) (acc : List (String × String)),
      (∀ hv, acc.lookup "house_number" = some hv →
        wholeWord hv (phoneSub raw) = true) →
      ∀ hv, (parsed.foldl (DomainAddress.cleanStep raw) acc).lookup "house_number" =
          some hv →
        wholeWord hv (phoneSub raw) = true := by
  intro parsed
  induction parsed with
  | nil => intro acc hacc hv h; exact hacc hv h
  | cons e rest ih =>
    intro acc hacc hv h
    rw [List.foldl_cons] at h
    exact ih _ (domain_cleanStep_house_invariant raw hph acc e hacc) hv h

theorem parsing_cleanStep_house_digit (acc : List (String × String))
    (e : String × String)
    (hacc : ∀ hv, acc.lookup "house_number" = some hv → hasDigit hv = true) :
    ∀ hv, (ParsingValidation.cleanStep acc e).lookup "house_number" = some hv →
      hasDigit hv = true := by
  intro hv hl
  simp only [ParsingValidation.cleanStep] at hl
  split at hl
  · exact hacc hv hl
  · split at hl
    · exact hacc hv hl
    · split at hl
      · exact hacc hv hl
      · split at hl
        · exact hacc hv hl
        · split at hl
          · exact hacc hv hl
          · split at hl
            · rename_i hpost
              split at hl
              · exact hacc hv hl
              · rw [lookup_dictSet_ne] at hl
                · exact hacc hv hl
                · rw [hpost]
                  decide
            · rename_i hnotdigit hnotroad hnotpost
              by_cases hkh : pyLower (pyStrip e.1) = "house_number"
              · rw [hkh, lookup_dictSet_self] at hl
                have hveq : hv = pyStrip e.2 := by
                  injection hl with h'
                  exact h'.symm
                subst hveq
                by_contra hc
                exact hnotdigit ⟨hkh, by simpa using hc⟩
              · rw [lookup_dictSet_ne] at hl
                · exact hacc hv hl
                · exact fun he => hkh he.symm

theorem parsing_clean_house_digit :
    ∀ (parsed : List (String × String)) (acc : List (String × String)),
      (∀ hv, acc.lookup "house_number" = some hv → hasDigit hv = true) →
      ∀ hv, (parsed.foldl ParsingValidation.cleanStep acc).lookup "house_number" =
          some hv →
        hasDigit hv = true := by
  intro parsed
  induction parsed with
  | nil => intro acc hacc hv h; exact hacc hv h
  | cons e rest ih =>
    intro acc hacc hv h
    rw [List.foldl_cons] at h
    exact ih _ (parsing_cleanStep_house_digit acc e hacc) hv h

theorem domain_cleanStep_house_digit (raw : String) (acc : List (String × String))
    (e : String × String)
    (hacc : ∀ hv, acc.lookup "house_number" = some hv → hasDigit hv = true) :
    ∀ hv, (DomainAddress.cleanStep raw acc e).lookup "house_number" = some hv →
      hasDigit hv = true := by
  intro hv hl
  simp only [DomainAddress.cleanStep] at hl
  split at hl
  · exact hacc hv hl
  · split at hl
    · exact hacc hv hl
    · split at hl
      · exact hacc hv hl
      · split at hl
        · exact hacc hv hl
        · split at hl
          · exact hacc hv hl
          · split at hl
            · exact hacc hv hl
            · split at hl
              · rename_i hpost
                split at hl
                · exact hacc hv hl
                · rw [lookup_dictSet_ne] at hl
                  · exact hacc hv hl
                  · rw [hpost]
                    decide
              · rename_i hnotdigit hnotpart hnotroad hnotpost
                by_cases hkh : pyLower (pyStrip e.1) = "house_number"
                · rw [hkh, lookup_dictSet_self] at hl
                  have hveq : hv = pyStrip e.2 := by
                    injection hl with h'
                    exact h'.symm
                  subst hveq
                  by_contra hc
                  exact hnotdigit ⟨hkh, by simpa using hc⟩
                · rw [lookup_dictSet_ne] at hl
                  · exact hacc hv hl
                  · exact fun he => hkh he.symm

theorem domain_clean_house_digit (raw : String) :
    ∀ (parsed : List (String × String)) (acc : List (String × String)),
      (∀ hv, acc.lookup "house_number" = some hv → hasDigit hv = true) →
      ∀ hv, (parsed.foldl (DomainAddress.cleanStep raw) acc).lookup "house_number" =
          some hv →
        hasDigit hv = true := by
  intro parsed
  induction parsed with
  | nil => intro acc hacc hv h; exact hacc hv h
  | cons e rest ih =>
    intro acc hacc hv h
    rw [List.foldl_cons] at h
    exact ih _ (domain_cleanStep_house_digit raw acc e hacc) hv h

theorem cleanStep_agree_of_no_phone {raw : String} (h : phoneFound raw = false) :
    ∀ acc e, DomainAddress.cleanStep raw acc e = ParsingValidation.cleanStep acc e := by
  intro acc e
  simp only [DomainAddress.cleanStep, ParsingValidation.cleanStep,
    is_part_false_of_no_phone h]
  simp

theorem validators_agree_of_no_phone (parsed : List (String × String))
    {raw : String} (h : phoneFound raw = false) :
    DomainAddress.validate_parsed_address parsed raw =
      ParsingValidation.validate_parsed_address parsed raw := by
  unfold DomainAddress.validate_parsed_address ParsingValidation.validate_parsed_address
  have hclean : DomainAddress.cleanComponents parsed raw =
      ParsingValidation.cleanComponents parsed := by
    unfold DomainAddress.cleanComponents ParsingValidation.cleanComponents
    exact foldl_congr_fun (cleanStep_agree_of_no_phone h) parsed []
  rw [hclean]

theorem pipeline_generate_text_candidates_eq (ocr : List (String × ℚ)) :
    pipeline_generate_text_candidates ocr =
      ocr ++ windowsOfSize ocr 2 ++ windowsOfSize ocr 3 := by
  unfold pipeline_generate_text_candidates
  rw [foldl_append_singleton, foldl_append_singleton]
  rw [List.map_congr_left (fun i h => pipeline_window_two_eq ocr i h),
    List.map_congr_left (fun i h => pipeline_window_three_eq ocr i h)]
  rw [range_pred_eq_pyRangeLen_two, range_sub_two_eq_pyRangeLen_three]
  simp [windowsOfSize]

theorem generate_sliding_window_candidates_default_eq (ocr : List (String × ℚ)) :
    generate_sliding_window_candidates 2 5 ocr =
      ocr ++ windowsOfSize ocr 2 ++ windowsOfSize ocr 3 ++ windowsOfSize ocr 4 ++
        windowsOfSize ocr 5 ++ fullTextChunk ocr := by
  unfold generate_sliding_window_candidates
  have h25 : List.range' 2 (5 + 1 - 2) = [2, 3, 4, 5] := rfl
  rw [h25]
  simp only [List.foldl_cons, List.foldl_nil, foldl_append_singleton]
  unfold windowsOfSize fullTextChunk
  by_cases hcond : 1 < ocr.length ∧ ocr.length ≤ 20
  · rw [if_pos hcond, if_pos hcond]
  · rw [if_neg hcond, if_neg hcond]
    simp

/-- C4 counterexample: the sliding-window generator of domain/text.py (used by
AddressExtractionService with its default window bounds 2..5), applied to four
input lines, emits the candidate "a b c d" spanning four lines, and its output
differs from the list the claim describes (individual lines, then all windows
of 2, then all windows of 3, and nothing else). -/
theorem C4_counterexample :
    (("a b c d", (1 : ℚ)) ∈ generate_sliding_window_candidates 2 5
        [("a", 1), ("b", 1), ("c", 1), ("d", 1)]) ∧
      generate_sliding_window_candidates 2 5 [("a", 1), ("b", 1), ("c", 1), ("d", 1)] ≠
        [("a", 1), ("b", 1), ("c", 1), ("d", 1),
          ("a b", 1), ("b c", 1), ("c d", 1), ("a b c", 1), ("b c d", 1)] := by
  have h4 : windowCandidate [("a", 1), ("b", 1), ("c", 1), ("d", 1)] 4 0 =
      ("a b c d", (1 : ℚ)) := by
    norm_num [windowCandidate, joinSpace, ratSum]
    rfl
  constructor
  · rw [generate_sliding_window_candidates_default_eq]
    have hmem : ("a b c d", (1 : ℚ)) ∈
        windowsOfSize [("a", 1), ("b", 1), ("c", 1), ("d", 1)] 4 := by
      unfold windowsOfSize pyRangeLen
      norm_num
      exact h4
    simp [hmem]
  · intro hEq
    have hlen := congrArg List.length hEq
    rw [generate_sliding_window_candidates_default_eq] at hlen
    simp [windowsOfSize, pyRangeLen, fullTextChunk] at hlen

/-- C4 (amended): _generate_text_candidates of services/pipeline.py returns
exactly the individual lines first (in input order), then every window of 2
consecutive lines, then every window of 3 consecutive lines, each window
joined by a single space with confidence the arithmetic mean of its members;
generate_sliding_window_candidates of domain/text.py (the generator used by
AddressExtractionService, with defaults min_window = 2, max_window = 5)
additionally appends every window of 4 and of 5 consecutive lines and, when
the input has more than 1 and at most 20 lines, a final full-text candidate
joining all lines. -/
theorem C4_text_candidate_generators (ocr : List (String × ℚ)) :
    pipeline_generate_text_candidates ocr =
        ocr ++ windowsOfSize ocr 2 ++ windowsOfSize ocr 3 ∧
      generate_sliding_window_candidates 2 5 ocr =
        ocr ++ windowsOfSize ocr 2 ++ windowsOfSize ocr 3 ++ windowsOfSize ocr 4 ++
          windowsOfSize ocr 5 ++ fullTextChunk ocr :=
  ⟨pipeline_generate_text_candidates_eq ocr,
    generate_sliding_window_candidates_default_eq ocr⟩

theorem combinedConfidence_bounds (conf : ℚ) (g : GeocodeResult) :
    0 ≤ combinedConfidence conf g ∧ combinedConfidence conf g ≤ 1 := by
  have hb0 : (0 : ℚ) ≤ max 0 (min 1 conf) := le_max_left _ _
  have hb1 : max 0 (min 1 conf) ≤ 1 := max_le (by norm_num) (min_le_left _ _)
  simp only [combinedConfidence]
  split_ifs with h1 h2
  · refine ⟨le_min (by norm_num) (by linarith), min_le_left _ _⟩
  · refine ⟨le_max_left _ _, max_le (by norm_num) (by linarith)⟩
  · exact ⟨hb0, hb1⟩

/-! ### Deduplication lemmas (towards C7) -/

theorem mem_insertDescByConf {x a : AddressCandidate} :
    ∀ {l : List AddressCandidate}, x ∈ insertDescByConf a l ↔ x = a ∨ x ∈ l := by
  intro l
  induction l with
  | nil => simp [insertDescByConf]
  | cons y ys ih =>
    simp only [insertDescByConf]
    by_cases hc : y.confidence ≤ a.confidence
    · rw [if_pos hc]
      simp only [List.mem_cons]
    · rw [if_neg hc]
      simp only [List.mem_cons, ih]
      tauto

theorem mem_sortDescByConf {x : AddressCandidate} :
    ∀ {l : List AddressCandidate}, x ∈ sortDescByConf l ↔ x ∈ l := by
  intro l
  induction l with
  | nil => simp [sortDescByConf]
  | cons y ys ih =>
    simp only [sortDescByConf, List.foldr_cons]
    rw [mem_insertDescByConf]
    simp only [List.mem_cons]
    rw [show (sortDescByConf ys = List.foldr insertDescByConf [] ys) from rfl] at ih
    tauto

theorem pairwise_insertDescByConf {a : AddressCandidate}
    {l : List AddressCandidate}
    (h : l.Pairwise (fun u v => v.confidence ≤ u.confidence)) :
    (insertDescByConf a l).Pairwise (fun u v => v.confidence ≤ u.confidence) := by
  induction l with
  | nil => simp [insertDescByConf]
  | cons y ys ih =>
    have hy : ∀ b ∈ ys, b.confidence ≤ y.confidence := (List.pairwise_cons.mp h).1
    have hys : ys.Pairwise (fun u v => v.confidence ≤ u.confidence) :=
      (List.pairwise_cons.mp h).2
    simp only [insertDescByConf]
    by_cases hc : y.confidence ≤ a.confidence
    · rw [if_pos hc]
      rw [List.pairwise_cons]
      refine ⟨?_, h⟩
      intro b hb
      rcases List.mem_cons.mp hb with rfl | hb'
      · exact hc
      · exact le_trans (hy b hb') hc
    · rw [if_neg hc]
      rw [List.pairwise_cons]
      refine ⟨?_, ih hys⟩
      intro b hb
      rcases mem_insertDescByConf.mp hb with rfl | hb'
      · exact le_of_lt (lt_of_not_le hc)
      · exact hy b hb'

theorem sortDescByConf_pairwise (l : List AddressCandidate) :
    (sortDescByConf l).Pairwise (fun u v => v.confidence ≤ u.confidence) := by
  induction l with
  | nil => simp [sortDescByConf]
  | cons y ys ih =>
    simp only [sortDescByConf, List.foldr_cons]
    exact pairwise_insertDescByConf ih

theorem insertDescByConf_eq_cons {a : AddressCandidate} {l : List AddressCandidate}
    (h : ∀ b ∈ l, b.confidence ≤ a.confidence) : insertDescByConf a l = a :: l := by
  cases l with
  | nil => rfl
  | cons y ys =>
    simp only [insertDescByConf]
    rw [if_pos (h y (List.mem_cons_self y ys))]

theorem sortDescByConf_eq_self {l : List AddressCandidate}
    (h : l.Pairwise (fun u v => v.confidence ≤ u.confidence)) :
    sortDescByConf l = l := by
  induction l with
  | nil => rfl
  | cons y ys ih =>
    have hy : ∀ b ∈ ys, b.confidence ≤ y.confidence := (List.pairwise_cons.mp h).1
    have hys := (List.pairwise_cons.mp h).2
    simp only [sortDescByConf, List.foldr_cons]
    rw [show (List.foldr insertDescByConf [] ys = sortDescByConf ys) from rfl, ih hys]
    exact insertDescByConf_eq_cons hy

theorem insertDescByConf_length (a : AddressCandidate) :
    ∀ l : List AddressCandidate, (insertDescByConf a l).length = l.length + 1 := by
  intro l
  induction l with
  | nil => rfl
  | cons y ys ih =>
    simp only [insertDescByConf]
    by_cases hc : y.confidence ≤ a.confidence
    · rw [if_pos hc]
      rfl
    · rw [if_neg hc]
      simp [ih, List.length_cons]

theorem sortDescByConf_length (l : List AddressCandidate) :
    (sortDescByConf l).length = l.length := by
  induction l with
  | nil => rfl
  | cons y ys ih =>
    simp only [sortDescByConf, List.foldr_cons] at ih ⊢
    rw [insertDescByConf_length, ih]
    rfl

theorem dedupeByLabel_sublist :
    ∀ (l : List AddressCandidate) (seen : List String),
      (dedupeByLabel l seen).Sublist l := by
  intro l
  induction l with
  | nil => intro seen; simp [dedupeByLabel]
  | cons v vs ih =>
    intro seen
    simp only [dedupeByLabel]
    by_cases hc : labelOf v ∈ seen
    · rw [if_pos hc]
      exact (ih seen).cons v
    · rw [if_neg hc]
      exact (ih (labelOf v :: seen)).cons₂ v

theorem dedupeByLabel_labels :
    ∀ (l : List AddressCandidate) (seen : List String),
      ((dedupeByLabel l seen).map labelOf).Nodup ∧
        ∀ x ∈ (dedupeByLabel l seen).map labelOf, x ∉ seen := by
  intro l
  induction l with
  | nil => intro seen; simp [dedupeByLabel]
  | cons v vs ih =>
    intro seen
    simp only [dedupeByLabel]
    by_cases hc : labelOf v ∈ seen
    · rw [if_pos hc]
      exact ih seen
    · rw [if_neg hc]
      obtain ⟨hnodup, hdisj⟩ := ih (labelOf v :: seen)
      refine ⟨?_, ?_⟩
      · simp only [List.map_cons, List.nodup_cons]
        refine ⟨?_, hnodup⟩
        intro hmem
        exact hdisj _ hmem (List.mem_cons_self _ _)
      · intro x hx
        rw [List.map_cons] at hx
        rcases List.mem_cons.mp hx with rfl | hx'
        · exact hc
        · intro hxs
          exact hdisj x hx' (List.mem_cons_of_mem _ hxs)

theorem dedupeByLabel_eq_self :
    ∀ (l : List AddressCandidate) (seen : List String),
      (l.map labelOf).Nodup → (∀ x ∈ l.map labelOf, x ∉ seen) →
      dedupeByLabel l seen = l := by
  intro l
  induction l with
  | nil => intro seen _ _; rfl
  | cons v vs ih =>
    intro seen hnodup hdisj
    rw [List.map_cons] at hnodup
    have hnv : labelOf v ∉ vs.map labelOf := (List.nodup_cons.mp hnodup).1
    have hnvs : (vs.map labelOf).Nodup := (List.nodup_cons.mp hnodup).2
    simp only [dedupeByLabel]
    rw [if_neg (hdisj (labelOf v) (by simp))]
    congr 1
    apply ih
    · exact hnvs
    · intro x hx hmem
      rcases List.mem_cons.mp hmem with heq | hmem'
      · exact hnv (heq ▸ hx)
      · exact hdisj x (by rw [List.map_cons]; exact List.mem_cons_of_mem _ hx) hmem'

theorem maxByConf_mem :
    ∀ (t : List AddressCandidate) (best : AddressCandidate),
      maxByConf best t ∈ best :: t := by
  intro t
  induction t with
  | nil => intro best; simp [maxByConf]
  | cons c cs ih =>
    intro best
    simp only [maxByConf]
    by_cases hc : c.confidence > best.confidence
    · rw [if_pos hc]
      have := ih c
      rcases List.mem_cons.mp this with h | h
      · simp [h]
      · simp [List.mem_cons_of_mem, h]
    · rw [if_neg hc]
      have := ih best
      rcases List.mem_cons.mp this with h | h
      · simp [h]
      · simp [List.mem_cons_of_mem, h]

theorem processGroup_mem {c : AddressCandidate} {g : List AddressCandidate}
    (h : c ∈ processGroup g) : c ∈ g := by
  cases g with
  | nil => simp [processGroup] at h
  | cons x t =>
    simp only [processGroup] at h
    rcases hval : (x :: t).filter statusValidated with _ | ⟨v, vs⟩
    · rw [hval] at h
      simp only [List.mem_singleton] at h
      subst h
      exact maxByConf_mem t x
    · rw [hval] at h
      have h1 : c ∈ sortDescByConf ((x :: t).filter statusValidated) :=
        (dedupeByLabel_sublist _ _).subset (by rwa [hval])
      have h2 : c ∈ (x :: t).filter statusValidated := mem_sortDescByConf.mp h1
      exact (List.mem_filter.mp h2).1

theorem processGroup_ne_nil {g : List AddressCandidate} (h : g ≠ []) :
    processGroup g ≠ [] := by
  cases g with
  | nil => exact absurd rfl h
  | cons x t =>
    simp only [processGroup]
    rcases hval : (x :: t).filter statusValidated with _ | ⟨v, vs⟩
    · simp
    · have hlen : (sortDescByConf (v :: vs)).length = vs.length + 1 := by
        rw [sortDescByConf_length]
        rfl
      rcases hs : sortDescByConf (v :: vs) with _ | ⟨w, ws⟩
      · rw [hs] at hlen
        simp at hlen
      · simp only [dedupeByLabel]
        rw [if_neg (by simp : labelOf w ∉ ([] : List String))]
        simp

theorem dedupe_sort_ne_nil (v : AddressCandidate) (vs : List AddressCandidate) :
    dedupeByLabel (sortDescByConf (v :: vs)) [] ≠ [] := by
  have hlen : (sortDescByConf (v :: vs)).length = vs.length + 1 := by
    rw [sortDescByConf_length]
    rfl
  rcases hs : sortDescByConf (v :: vs) with _ | ⟨w, ws⟩
  · rw [hs] at hlen
    simp at hlen
  · simp only [dedupeByLabel]
    rw [if_neg (by simp : labelOf w ∉ ([] : List String))]
    simp

theorem processGroup_of_all_validated {B : List AddressCandidate} (hne : B ≠ [])
    (hval : ∀ c ∈ B, statusValidated c = true)
    (hpair : B.Pairwise (fun u v => v.confidence ≤ u.confidence))
    (hnodup : (B.map labelOf).Nodup) : processGroup B = B := by
  rcases B with _ | ⟨b, bs⟩
  · exact absurd rfl hne
  · have hfilter : (b :: bs).filter statusValidated = b :: bs :=
      List.filter_eq_self.mpr hval
    show processGroup (b :: bs) = b :: bs
    simp only [processGroup]
    rw [hfilter]
    show dedupeByLabel (sortDescByConf (b :: bs)) [] = b :: bs
    rw [sortDescByConf_eq_self hpair]
    exact dedupeByLabel_eq_self _ [] hnodup (by simp)

theorem processGroup_idem (g : List AddressCandidate) :
    processGroup (processGroup g) = processGroup g := by
  cases g with
  | nil => rfl
  | cons x t =>
    rcases hval : (x :: t).filter statusValidated with _ | ⟨v, vs⟩
    · have hres : processGroup (x :: t) = [maxByConf x t] := by
        simp only [processGroup]
        rw [hval]
      have hb : maxByConf x t ∈ x :: t := maxByConf_mem t x
      have hnv : statusValidated (maxByConf x t) = false := by
        by_contra hc
        have hmem : maxByConf x t ∈ (x :: t).filter statusValidated :=
          List.mem_filter.mpr ⟨hb, by simpa using hc⟩
        rw [hval] at hmem
        simp at hmem
      rw [hres]
      simp only [processGroup]
      rw [show ([maxByConf x t].filter statusValidated) = [] from by
        simp [List.filter, hnv]]
      show [maxByConf (maxByConf x t) []] = [maxByConf x t]
      simp [maxByConf]
    · have hres : processGroup (x :: t) = dedupeByLabel (sortDescByConf (v :: vs)) [] := by
        simp only [processGroup]
        rw [hval]
      have hBsub : ∀ c ∈ dedupeByLabel (sortDescByConf (v :: vs)) [],
          c ∈ (x :: t).filter statusValidated := by
        intro c hc
        rw [hval]
        exact mem_sortDescByConf.mp ((dedupeByLabel_sublist _ _).subset hc)
      have hBval : ∀ c ∈ dedupeByLabel (sortDescByConf (v :: vs)) [],
          statusValidated c = true := by
        intro c hc
        exact (List.mem_filter.mp (hBsub c hc)).2
      have hBpair : (dedupeByLabel (sortDescByConf (v :: vs)) []).Pairwise
          (fun u v => v.confidence ≤ u.confidence) :=
        (sortDescByConf_pairwise (v :: vs)).sublist (dedupeByLabel_sublist _ _)
      rw [hres]
      exact processGroup_of_all_validated (dedupe_sort_ne_nil v vs) hBval hBpair
        (dedupeByLabel_labels _ _).1

theorem dedupFirst_nil : dedupFirst [] = [] := by
  rw [dedupFirst]

theorem dedupFirst_cons (x : String) (xs : List String) :
    dedupFirst (x :: xs) = x :: dedupFirst (xs.filter (fun y => y ≠ x)) := by
  rw [dedupFirst]

theorem mem_dedupFirst {y : String} : ∀ l : List String, y ∈ dedupFirst l ↔ y ∈ l := by
  intro l
  induction l using dedupFirst.induct with
  | case1 => simp [dedupFirst_nil]
  | case2 x xs ih =>
    rw [dedupFirst_cons]
    by_cases hy : y = x
    · subst hy
      simp
    · simp only [List.mem_cons, hy, false_or]
      rw [ih]
      simp [List.mem_filter, hy]

theorem dedupFirst_nodup : ∀ l : List String, (dedupFirst l).Nodup := by
  intro l
  induction l using dedupFirst.induct with
  | case1 => simp [dedupFirst_nil]
  | case2 x xs ih =>
    rw [dedupFirst_cons]
    rw [List.nodup_cons]
    refine ⟨?_, ih⟩
    intro hmem
    have := (mem_dedupFirst _).mp hmem
    simp [List.mem_filter] at this

theorem filter_flatMap_blocks (K : List String) (f : String → List AddressCandidate)
    (hkeys : ∀ j ∈ K, ∀ c ∈ f j, get_loose_dedupe_key c = j)
    (hnodup : K.Nodup) (k : String) (hk : k ∈ K) :
    (K.flatMap f).filter (fun c => get_loose_dedupe_key c = k) = f k := by
  induction K with
  | nil => simp at hk
  | cons j K' ih =>
    rw [List.flatMap_cons, List.filter_append]
    have hjkeys := hkeys j (by simp)
    have hnodup' := List.nodup_cons.mp hnodup
    rcases List.mem_cons.mp hk with rfl | hk'
    · have h1 : (f k).filter (fun c => get_loose_dedupe_key c = k) = f k :=
        List.filter_eq_self.mpr (fun c hc => by simp [hjkeys c hc])
      have h2 : (K'.flatMap f).filter (fun c => get_loose_dedupe_key c = k) = [] := by
        rw [List.filter_eq_nil_iff]
        intro c hc
        obtain ⟨j', hj', hcj'⟩ := List.mem_flatMap.mp hc
        have hcj : get_loose_dedupe_key c = j' :=
          hkeys j' (List.mem_cons_of_mem _ hj') c hcj'
        have : j' ≠ k := fun he => hnodup'.1 (he ▸ hj')
        simp [hcj, this]
      rw [h1, h2, List.append_nil]
    · have hjk : j ≠ k := fun he => hnodup'.1 (he ▸ hk')
      have h1 : (f j).filter (fun c => get_loose_dedupe_key c = k) = [] := by
        rw [List.filter_eq_nil_iff]
        intro c hc
        simp [hjkeys c hc, hjk]
      rw [h1, List.nil_append]
      exact ih (fun j' hj' => hkeys j' (List.mem_cons_of_mem _ hj')) hnodup'.2 hk'

theorem dedupFirst_map_key_flatMap (K : List String)
    (f : String → List AddressCandidate)
    (hkeys : ∀ j ∈ K, ∀ c ∈ f j, get_loose_dedupe_key c = j)
    (hne : ∀ j ∈ K, f j ≠ []) (hnodup : K.Nodup) :
    dedupFirst ((K.flatMap f).map get_loose_dedupe_key) = K := by
  induction K with
  | nil => simp [dedupFirst_nil]
  | cons j K' ih =>
    rw [List.flatMap_cons, List.map_append]
    have hnodup' := List.nodup_cons.mp hnodup
    have hallj : ∀ z ∈ (f j).map get_loose_dedupe_key, z = j := by
      intro z hz
      obtain ⟨c, hc, hcz⟩ := List.mem_map.mp hz
      rw [← hcz]
      exact hkeys j (by simp) c hc
    rcases hfj : (f j).map get_loose_dedupe_key with _ | ⟨z, zs⟩
    · exact absurd (List.map_eq_nil_iff.mp hfj) (hne j (by simp))
    · have hz : z = j := hallj z (by rw [hfj]; simp)
      subst hz
      rw [List.cons_append, dedupFirst_cons]
      congr 1
      rw [List.filter_append]
      have h1 : zs.filter (fun y => y ≠ z) = [] := by
        rw [List.filter_eq_nil_iff]
        intro y hy
        have : y = z := hallj y (by rw [hfj]; exact List.mem_cons_of_mem _ hy)
        simp [this]
      have h2 : ((K'.flatMap f).map get_loose_dedupe_key).filter (fun y => y ≠ z) =
          (K'.flatMap f).map get_loose_dedupe_key := by
        rw [List.filter_eq_self]
        intro y hy
        obtain ⟨c, hc, hcy⟩ := List.mem_map.mp hy
        obtain ⟨j', hj', hcj'⟩ := List.mem_flatMap.mp hc
        have : y = j' := by
          rw [← hcy]
          exact hkeys j' (List.mem_cons_of_mem _ hj') c hcj'
        subst this
        have : y ≠ z := fun he => hnodup'.1 (he ▸ hj')
        simp [this]
      rw [h1, h2, List.nil_append]
      exact ih (fun j' hj' => hkeys j' (List.mem_cons_of_mem _ hj'))
        (fun j' hj' => hne j' (List.mem_cons_of_mem _ hj')) hnodup'.2

theorem flatMap_congr_mem {K : List String} {f g : String → List AddressCandidate}
    (h : ∀ k ∈ K, f k = g k) : K.flatMap f = K.flatMap g := by
  induction K with
  | nil => rfl
  | cons j K' ih =>
    rw [List.flatMap_cons, List.flatMap_cons, h j (by simp),
      ih (fun k hk => h k (List.mem_cons_of_mem _ hk))]

/-! ### Routing lemmas (towards C6 and C10) -/

theorem buildLegsVisit_cumulative (nodes : List (String × ℚ × ℚ))
    (dist dur : Nat → Nat → ℤ) :
    ∀ (indices : List Nat) (prev : Option Nat) (order : Nat) (cumDist : ℚ)
      (cumEta : ℤ) (k : Nat),
      k < (buildLegsVisit nodes dist dur indices prev order cumDist cumEta).length →
      ((buildLegsVisit nodes dist dur indices prev order cumDist cumEta).getD k
          defaultLeg).cumulative_distance_meters =
        some (cumDist +
          (((buildLegsVisit nodes dist dur indices prev order cumDist cumEta).take
            (k + 1)).map (fun l => l.distance_meters.getD 0)).sum) := by
  intro indices
  induction indices with
  | nil =>
    intro prev order cd ce k hk
    simp [buildLegsVisit] at hk
  | cons idx rest ih =>
    intro prev order cd ce k hk
    simp only [buildLegsVisit] at hk ⊢
    cases k with
    | zero =>
      simp [List.getD, List.take, List.sum_cons]
    | succ k' =>
      have hk' : k' < (buildLegsVisit nodes dist dur rest (some idx) (order + 1)
          (cd + prevDist dist prev idx) (ce + prevDur dur prev idx)).length := by
        simpa using hk
      have := ih (some idx) (order + 1)
        (cd + prevDist dist prev idx) (ce + prevDur dur prev idx) k' hk'
      simp only [List.getD_cons_succ, List.take_succ_cons, List.map_cons,
        List.sum_cons]
      rw [this]
      congr 1
      simp only [Option.getD_some]
      ring

theorem buildLegsInputOrder_cumulative (dist dur : Nat → Nat → ℤ) :
    ∀ (rest : List (String × ℚ × ℚ)) (index : Nat) (cumDist : ℚ) (cumEta : ℤ)
      (k : Nat),
      k < (buildLegsInputOrder dist dur rest index cumDist cumEta).length →
      ((buildLegsInputOrder dist dur rest index cumDist cumEta).getD k
          defaultLeg).cumulative_distance_meters =
        some (cumDist +
          (((buildLegsInputOrder dist dur rest index cumDist cumEta).take
            (k + 1)).map (fun l => l.distance_meters.getD 0)).sum) := by
  intro rest
  induction rest with
  | nil =>
    intro index cd ce k hk
    simp [buildLegsInputOrder] at hk
  | cons node rest ih =>
    intro index cd ce k hk
    simp only [buildLegsInputOrder] at hk ⊢
    cases k with
    | zero =>
      simp [List.getD, List.take, List.sum_cons]
    | succ k' =>
      have hk' : k' < (buildLegsInputOrder dist dur rest (index + 1)
          (cd + if 0 < index then ((dist (index - 1) index : ℤ) : ℚ) else 0)
          (ce + if 0 < index then dur (index - 1) index else 0)).length := by
        simpa using hk
      have := ih (index + 1)
        (cd + if 0 < index then ((dist (index - 1) index : ℤ) : ℚ) else 0)
        (ce + if 0 < index then dur (index - 1) index else 0) k' hk'
      simp only [List.getD_cons_succ, List.take_succ_cons, List.map_cons,
        List.sum_cons]
      rw [this]
      congr 1
      simp only [Option.getD_some]
      ring

theorem buildLegsVisit_mem (nodes : List (String × ℚ × ℚ))
    (dist dur : Nat → Nat → ℤ) :
    ∀ (indices : List Nat) (prev : Option Nat) (order : Nat) (cumDist : ℚ)
      (cumEta : ℤ), (∀ i ∈ indices, i < nodes.length) →
      ∀ leg ∈ buildLegsVisit nodes dist dur indices prev order cumDist cumEta,
        ∃ node ∈ nodes, leg.label = node.1 ∧ leg.latitude = node.2.1 ∧
          leg.longitude = node.2.2 := by
  intro indices
  induction indices with
  | nil =>
    intro prev order cd ce _ leg hleg
    simp [buildLegsVisit] at hleg
  | cons idx rest ih =>
    intro prev order cd ce hvalid leg hleg
    simp only [buildLegsVisit] at hleg
    rcases List.mem_cons.mp hleg with rfl | hleg'
    · have hidx : idx < nodes.length := hvalid idx (by simp)
      refine ⟨nodes.getD idx ("", 0, 0), ?_, rfl, rfl, rfl⟩
      rw [List.getD_eq_getElem?_getD, List.getElem?_eq_getElem hidx]
      exact List.getElem_mem hidx
    · exact ih (some idx) (order + 1) _ _
        (fun i hi => hvalid i (List.mem_cons_of_mem _ hi)) leg hleg'

theorem buildLegsInputOrder_mem (dist dur : Nat → Nat → ℤ) :
    ∀ (rest : List (String × ℚ × ℚ)) (index : Nat) (cumDist : ℚ) (cumEta : ℤ),
      ∀ leg ∈ buildLegsInputOrder dist dur rest index cumDist cumEta,
        ∃ node ∈ rest, leg.label = node.1 ∧ leg.latitude = node.2.1 ∧
          leg.longitude = node.2.2 := by
  intro rest
  induction rest with
  | nil =>
    intro index cd ce leg hleg
    simp [buildLegsInputOrder] at hleg
  | cons node rest ih =>
    intro index cd ce leg hleg
    simp only [buildLegsInputOrder] at hleg
    rcases List.mem_cons.mp hleg with rfl | hleg'
    · exact ⟨node, by simp, rfl, rfl, rfl⟩
    · obtain ⟨n, hn, hfields⟩ := ih (index + 1) _ _ leg hleg'
      exact ⟨n, List.mem_cons_of_mem _ hn, hfields⟩

/-- C5 counterexample: validate_parsed_address of app/parsing/validation.py
(the claim's cited symbol) keeps house_number "555" and accepts the candidate
even though "555" occurs in the raw text only inside a detected phone number
(stripping the phone matches leaves no whole-word occurrence of "555"),
contradicting the claim that such a house_number is dropped.  The validator
of app/domain/address.py does drop it (and then rejects the candidate). -/
theorem C5_counterexample :
    (ParsingValidation.validate_parsed_address
        [("house_number", "555"), ("road", "Oak St")] "Oak St 555-123-4567").is_valid
        = true ∧
      (ParsingValidation.validate_parsed_address
        [("house_number", "555"), ("road", "Oak St")] "Oak St 555-123-4567").components
        = some [("house_number", "555"), ("road", "Oak St")] ∧
      phoneFound "Oak St 555-123-4567" = true ∧
      wholeWord "555" (phoneSub "Oak St 555-123-4567") = false ∧
      (DomainAddress.validate_parsed_address
        [("house_number", "555"), ("road", "Oak St")] "Oak St 555-123-4567").is_valid
        = false := by
  refine ⟨?_, ?_, ?_, ?_, ?_⟩ <;> decide

/-- C5 (amended): the phone-number rule lives in
domain/address.py validate_parsed_address (the validator used by the
extraction service), not in parsing/validation.py whose validator applies
only the digit rule to house_number.  When the raw text contains at least one
phone-pattern match, every house_number surviving the domain validator's
cleaning loop contains a digit and still occurs as a whole word after every
phone-pattern match is stripped from the raw text; when the raw text contains
no phone-pattern match, the domain validator behaves exactly like the
parsing/validation.py one, keeping the house_number without checking its
occurrence in the raw text; the parsing/validation.py validator keeps any
surviving house_number with a digit, with no phone-number rule. -/
theorem C5_house_number_phone_rule (parsed : List (String × String)) (raw : String) :
    (phoneFound raw = true →
      ∀ hv, (DomainAddress.cleanComponents parsed raw).lookup "house_number" = some hv →
        hasDigit hv = true ∧ wholeWord hv (phoneSub raw) = true) ∧
      (phoneFound raw = false →
        DomainAddress.validate_parsed_address parsed raw =
          ParsingValidation.validate_parsed_address parsed raw) ∧
      (∀ hv, (ParsingValidation.cleanComponents parsed).lookup "house_number" = some hv →
        hasDigit hv = true) := by
  refine ⟨?_, ?_, ?_⟩
  · intro hph hv hl
    refine ⟨?_, ?_⟩
    · exact domain_clean_house_digit raw parsed []
        (by intro hv' h'; simp [List.lookup] at h') hv hl
    · exact domain_clean_house_whole_word raw hph parsed []
        (by intro hv' h'; simp [List.lookup] at h') hv hl
  · intro hph
    exact validators_agree_of_no_phone parsed hph
  · intro hv hl
    exact parsing_clean_house_digit parsed []
      (by intro hv' h'; simp [List.lookup] at h') hv hl

/-- Witness for C5: concrete applications of each hypothesis-bearing part. -/
theorem C5_house_number_phone_rule_witness :
    (hasDigit "9" = true ∧ wholeWord "9" (phoneSub "9 Oak St 555-123-4567") = true) ∧
      DomainAddress.validate_parsed_address [("city", "Austin"), ("state", "TX")]
          "Austin TX" =
        ParsingValidation.validate_parsed_address [("city", "Austin"), ("state", "TX")]
          "Austin TX" ∧
      hasDigit "123" = true :=
  ⟨(C5_house_number_phone_rule [("house_number", "9"), ("road", "Oak St")]
      "9 Oak St 555-123-4567").1 (by decide) "9" (by decide),
    (C5_house_number_phone_rule [("city", "Austin"), ("state", "TX")] "Austin TX").2.1
      (by decide),
    (C5_house_number_phone_rule [("house_number", "123"), ("road", "Main St")]
      "123 Main St").2.2 "123" (by decide)⟩

/-- C9: every AddressCandidate produced by either candidate builder
(services/pipeline.py _build_candidate and
AddressExtractionService._build_candidate) has confidence in [0, 1]
regardless of the incoming OCR confidence and of the geocode result: the OCR
confidence is clamped into [0, 1], the averaged value is capped at 1, and the
halved value on a geocode failure message is floored at 0, so the
AddressCandidate field constraint 0 ≤ confidence ≤ 1 always holds. -/
theorem C9_candidate_confidence_in_unit_interval (text : String) (conf : ℚ)
    (g : GeocodeResult) (parsedOpt : Option (List (String × String)))
    (parsed : List (String × String)) :
    (0 ≤ (pipeline_build_candidate text conf g parsedOpt).confidence ∧
        (pipeline_build_candidate text conf g parsedOpt).confidence ≤ 1) ∧
      (0 ≤ (service_build_candidate text conf g parsed).confidence ∧
        (service_build_candidate text conf g parsed).confidence ≤ 1) := by
  have h := combinedConfidence_bounds conf g
  exact ⟨h, h⟩

/-- C7: the deduplication step of AddressExtractionService
(_filter_duplicates with _get_loose_dedupe_key: group candidates by the
lowercased/trimmed house_number|road|city|state key; within a group keep the
validated candidates deduplicated by resolved_label — falling back to the
stringified sorted parsed items or the raw text — at highest confidence per
label, else keep the single highest-confidence candidate) is idempotent:
applying it to its own output returns that output unchanged (even as a list,
hence certainly as a set). -/
theorem C7_filter_duplicates_idempotent (xs : List AddressCandidate) :
    filterDuplicates (filterDuplicates xs) = filterDuplicates xs := by
  have hKnodup : (dedupFirst (xs.map get_loose_dedupe_key)).Nodup := dedupFirst_nodup _
  have hkeys : ∀ j ∈ dedupFirst (xs.map get_loose_dedupe_key),
      ∀ c ∈ processGroup (xs.filter (fun c => get_loose_dedupe_key c = j)),
        get_loose_dedupe_key c = j := by
    intro j hj c hc
    have hm := processGroup_mem hc
    have := (List.mem_filter.mp hm).2
    simpa using this
  have hne : ∀ j ∈ dedupFirst (xs.map get_loose_dedupe_key),
      processGroup (xs.filter (fun c => get_loose_dedupe_key c = j)) ≠ [] := by
    intro j hj
    apply processGroup_ne_nil
    have hj' : j ∈ xs.map get_loose_dedupe_key := (mem_dedupFirst _).mp hj
    obtain ⟨c, hc, hkc⟩ := List.mem_map.mp hj'
    intro hnil
    have hmem : c ∈ xs.filter (fun c => get_loose_dedupe_key c = j) :=
      List.mem_filter.mpr ⟨hc, by simp [hkc]⟩
    rw [hnil] at hmem
    simp at hmem
  show filterDuplicates ((dedupFirst (xs.map get_loose_dedupe_key)).flatMap
      (fun k => processGroup (xs.filter (fun c => get_loose_dedupe_key c = k)))) =
    filterDuplicates xs
  rw [show ∀ ys, filterDuplicates ys = (dedupFirst (ys.map get_loose_dedupe_key)).flatMap
      (fun k => processGroup (ys.filter (fun c => get_loose_dedupe_key c = k)))
    from fun ys => rfl]
  rw [dedupFirst_map_key_flatMap _ _ hkeys hne hKnodup]
  apply flatMap_congr_mem
  intro k hk
  rw [filter_flatMap_blocks _ _ hkeys hKnodup k hk]
  exact processGroup_idem (xs.filter (fun c => get_loose_dedupe_key c = k))

/-- C6: the claim cites the leg loops of both routing modules.  Only
routing/optimizer.py can produce a route: every leg k of its compute_route
output has cumulative_distance_meters equal to the sum of distance_meters
over legs 0..k, and whenever the route is non-empty leg 0 (the depot) has
distance_meters = 0 and eta_seconds = 0.  services/routing.py compute_route
never yields a route of 2 or more legs: for every environment, whenever at
least 2 stops carry coordinates it raises AttributeError — the
matrix.static_durations read at line 124 on the solver path, the one at
line 199 on the fallback path — because DistanceMatrixResult defines no
such field. -/
theorem C6_optimizer_prefix_sums_service_crash (env : RoutingEnv)
    (addresses : List (String × Option ℚ × Option ℚ)) :
    (cumulativeOk (compute_route env addresses).legs ∧
      (1 ≤ (compute_route env addresses).legs.length →
        ((compute_route env addresses).legs.getD 0 defaultLeg).distance_meters
            = some 0 ∧
          ((compute_route env addresses).legs.getD 0 defaultLeg).eta_seconds
            = some 0)) ∧
    (2 ≤ (coordNodes addresses).length →
      service_compute_route env addresses = .error staticDurationsError) := by
  rcases hnodes : coordNodes addresses with _ | ⟨n0, rest0⟩
  · have hlegs : (compute_route env addresses).legs = [] := by
      simp only [compute_route]
      rw [hnodes]
    refine ⟨⟨?_, ?_⟩, ?_⟩
    · intro k hk
      rw [hlegs] at hk
      simp at hk
    · rw [hlegs]
      intro h1
      simp at h1
    · intro h2
      simp at h2
  · rcases rest0 with _ | ⟨n1, rest1⟩
    · obtain ⟨label, lat, lon⟩ := n0
      have hlegs : (compute_route env addresses).legs =
          [⟨0, label, lat, lon, some 0, some 0, some 0, some 0⟩] := by
        simp only [compute_route]
        rw [hnodes]
      refine ⟨⟨?_, ?_⟩, ?_⟩
      · intro k hk
        rw [hlegs] at hk ⊢
        have hk0 : k = 0 := by
          simp at hk
          omega
        subst hk0
        simp [List.getD]
      · intro _
        rw [hlegs]
        exact ⟨rfl, rfl⟩
      · intro h2
        simp at h2
    · rcases hsol : env.solveTsp (env.getMatrix (n0 :: n1 :: rest1)).distances
        with _ | idxs
      · have hsvc : service_compute_route env addresses =
            .error staticDurationsError := by
          simp only [service_compute_route]
          rw [hnodes, hsol]
          rfl
        have hlegs : (compute_route env addresses).legs =
            buildLegsInputOrder (env.getMatrix (n0 :: n1 :: rest1)).distances
              (env.getMatrix (n0 :: n1 :: rest1)).durations (n0 :: n1 :: rest1)
              0 0 0 := by
          simp only [compute_route]
          rw [hnodes, hsol]
        refine ⟨⟨?_, ?_⟩, fun _ => hsvc⟩
        · intro k hk
          rw [hlegs] at hk ⊢
          rw [buildLegsInputOrder_cumulative _ _ (n0 :: n1 :: rest1) 0 0 0 k hk,
            zero_add]
        · intro _
          rw [hlegs]
          constructor
          · simp [buildLegsInputOrder, List.getD]
          · simp [buildLegsInputOrder, List.getD]
      · have hsvc : service_compute_route env addresses =
            .error staticDurationsError := by
          simp only [service_compute_route]
          rw [hnodes, hsol]
        rcases idxs with _ | ⟨i0, irest⟩
        · have hlegs : (compute_route env addresses).legs = [] := by
            simp only [compute_route]
            rw [hnodes, hsol]
            rfl
          refine ⟨⟨?_, ?_⟩, fun _ => hsvc⟩
          · intro k hk
            rw [hlegs] at hk
            simp at hk
          · rw [hlegs]
            intro h1
            simp at h1
        · have hlegs : (compute_route env addresses).legs =
              buildLegsVisit (n0 :: n1 :: rest1)
                (env.getMatrix (n0 :: n1 :: rest1)).distances
                (env.getMatrix (n0 :: n1 :: rest1)).durations (i0 :: irest)
                none 0 0 0 := by
            simp only [compute_route]
            rw [hnodes, hsol]
          refine ⟨⟨?_, ?_⟩, fun _ => hsvc⟩
          · intro k hk
            rw [hlegs] at hk ⊢
            rw [buildLegsVisit_cumulative _ _ _ (i0 :: irest) none 0 0 0 k hk,
              zero_add]
          · intro _
            rw [hlegs]
            constructor
            · simp [buildLegsVisit, List.getD, prevDist]
            · simp [buildLegsVisit, List.getD, prevDur]

/-- Witness for C6: a concrete two-stop input.  The optimizer embedding
(TSP path) yields a route whose first leg has zero distance and eta, while
the services/routing.py embedding on the same input yields the
AttributeError, on the solver path and on the fallback path alike. -/
theorem C6_optimizer_prefix_sums_service_crash_witness :
    (1 ≤ (compute_route sampleRoutingEnv
        [("A", some 1, some 2), ("B", some 3, some 4)]).legs.length ∧
      ((compute_route sampleRoutingEnv
          [("A", some 1, some 2), ("B", some 3, some 4)]).legs.getD 0
        defaultLeg).distance_meters = some 0 ∧
      ((compute_route sampleRoutingEnv
          [("A", some 1, some 2), ("B", some 3, some 4)]).legs.getD 0
        defaultLeg).eta_seconds = some 0) ∧
    (2 ≤ (coordNodes [("A", some 1, some 2), ("B", some 3, some 4)]).length ∧
      service_compute_route sampleRoutingEnv
          [("A", some 1, some 2), ("B", some 3, some 4)] =
        .error staticDurationsError ∧
      service_compute_route sampleFallbackEnv
          [("A", some 1, some 2), ("B", some 3, some 4)] =
        .error staticDurationsError) :=
  ⟨⟨by decide,
    (C6_optimizer_prefix_sums_service_crash sampleRoutingEnv
      [("A", some 1, some 2), ("B", some 3, some 4)]).1.2 (by decide)⟩,
   ⟨by decide,
    (C6_optimizer_prefix_sums_service_crash sampleRoutingEnv
      [("A", some 1, some 2), ("B", some 3, some 4)]).2 (by decide),
    (C6_optimizer_prefix_sums_service_crash sampleFallbackEnv
      [("A", some 1, some 2), ("B", some 3, some 4)]).2 (by decide)⟩⟩

/-- C10: compute_route silently discards every stop missing a latitude or a
longitude before building the distance matrix and routing; every returned
leg carries the label and coordinates of one of the retained fully-coordinate
stops (given the solver contract that visit indices are in bounds), each
retained node comes from an input stop with both coordinates present, and
when no stop has both coordinates the result is an empty route rather than
an error. -/
theorem C10_coordinate_filtering (env : RoutingEnv)
    (addresses : List (String × Option ℚ × Option ℚ)) :
    (coordNodes addresses = [] → (compute_route env addresses).legs = []) ∧
      ((∀ idxs, env.solveTsp (env.getMatrix (coordNodes addresses)).distances =
            some idxs → ∀ i ∈ idxs, i < (coordNodes addresses).length) →
        ∀ leg ∈ (compute_route env addresses).legs,
          ∃ node ∈ coordNodes addresses, leg.label = node.1 ∧
            leg.latitude = node.2.1 ∧ leg.longitude = node.2.2) ∧
      (∀ node ∈ coordNodes addresses,
        (node.1, some node.2.1, some node.2.2) ∈ addresses) := by
  refine ⟨?_, ?_, ?_⟩
  · intro h
    simp only [compute_route]
    rw [h]
  · intro hvalid leg hleg
    rcases hnodes : coordNodes addresses with _ | ⟨n0, rest0⟩
    · have hlegs : (compute_route env addresses).legs = [] := by
        simp only [compute_route]
        rw [hnodes]
      rw [hlegs] at hleg
      simp at hleg
    · rcases rest0 with _ | ⟨n1, rest1⟩
      · obtain ⟨label, lat, lon⟩ := n0
        have hlegs : (compute_route env addresses).legs =
            [⟨0, label, lat, lon, some 0, some 0, some 0, some 0⟩] := by
          simp only [compute_route]
          rw [hnodes]
        rw [hlegs] at hleg
        simp only [List.mem_singleton] at hleg
        subst hleg
        exact ⟨(label, lat, lon), by simp, rfl, rfl, rfl⟩
      · rw [hnodes] at hvalid
        rcases hsol : env.solveTsp (env.getMatrix (n0 :: n1 :: rest1)).distances with
          _ | idxs
        · have hlegs : (compute_route env addresses).legs =
              buildLegsInputOrder (env.getMatrix (n0 :: n1 :: rest1)).distances
                (env.getMatrix (n0 :: n1 :: rest1)).durations (n0 :: n1 :: rest1)
                0 0 0 := by
            simp only [compute_route]
            rw [hnodes, hsol]
          rw [hlegs] at hleg
          obtain ⟨node, hn, hf⟩ := buildLegsInputOrder_mem _ _ (n0 :: n1 :: rest1)
            0 0 0 leg hleg
          exact ⟨node, hn, hf⟩
        · have hlegs : (compute_route env addresses).legs =
              buildLegsVisit (n0 :: n1 :: rest1)
                (env.getMatrix (n0 :: n1 :: rest1)).distances
                (env.getMatrix (n0 :: n1 :: rest1)).durations idxs none 0 0 0 := by
            simp only [compute_route]
            rw [hnodes, hsol]
          rw [hlegs] at hleg
          obtain ⟨node, hn, hf⟩ := buildLegsVisit_mem (n0 :: n1 :: rest1) _ _ idxs
            none 0 0 0 (hvalid idxs hsol) leg hleg
          exact ⟨node, hn, hf⟩
  · intro node hnode
    obtain ⟨a, ha, hmatch⟩ := List.mem_filterMap.mp hnode
    obtain ⟨label, olat, olon⟩ := a
    rcases olat with _ | lat
    · simp at hmatch
    · rcases olon with _ | lon
      · simp at hmatch
      · simp only [Option.some.injEq] at hmatch
        rw [← hmatch]
        exact ha

/-- Witness for C10: the single incomplete stop is dropped (empty route),
and on a concrete two-stop input every leg matches a retained stop. -/
theorem C10_coordinate_filtering_witness :
    (compute_route sampleRoutingEnv [("X", none, some 1)]).legs = [] ∧
      ∀ leg ∈ (compute_route sampleRoutingEnv
          [("A", some 1, some 2), ("B", some 3, some 4)]).legs,
        ∃ node ∈ coordNodes [("A", some 1, some 2), ("B", some 3, some 4)],
          leg.label = node.1 ∧ leg.latitude = node.2.1 ∧ leg.longitude = node.2.2 :=
  ⟨(C10_coordinate_filtering sampleRoutingEnv [("X", none, some 1)]).1 (by decide),
    (C10_coordinate_filtering sampleRoutingEnv
      [("A", some 1, some 2), ("B", some 3, some 4)]).2.1 (by
        intro idxs h i hi
        have hidx : [0, 1] = idxs := by
          simpa [sampleRoutingEnv] using h
        rw [← hidx] at hi
        have hlen : (coordNodes
            [("A", (some 1 : Option ℚ), (some 2 : Option ℚ)),
              ("B", some 3, some 4)]).length = 2 := by decide
        rw [hlen]
        rcases List.mem_cons.mp hi with rfl | hi'
        · omega
        · simp at hi'
          omega)⟩

theorem decodeCandidates_of_bounds :
    ∀ l : List AddressCandidate,
      (∀ c ∈ l, 0 ≤ c.confidence ∧ c.confidence ≤ 1) →
      decodeCandidates l = some l := by
  intro l
  induction l with
  | nil => intro _; rfl
  | cons c cs ih =>
    intro h
    simp only [decodeCandidates, decodeCandidate]
    rw [if_pos (h c (by simp))]
    rw [ih (fun x hx => h x (List.mem_cons_of_mem _ hx))]

/-- C8: upserting a JobRecord and loading it back by id returns a record
(not None, not an error) whose address count, route-leg count and status are
identical to the stored record's.  The hypothesis that stored confidences
lie in [0, 1] reflects the pydantic field constraint every constructed
AddressCandidate satisfies (claim C9). -/
theorem C8_upsert_get_roundtrip (store : JobStore) (r : JobRecord)
    (hconf : ∀ c ∈ r.addresses, 0 ≤ c.confidence ∧ c.confidence ≤ 1) :
    ∃ rec, repository_get (repository_upsert store r) r.job_id = .ok (some rec) ∧
      rec.addresses.length = r.addresses.length ∧
      rec.route.length = r.route.length ∧
      rec.status = r.status := by
  simp only [repository_get, repository_upsert]
  rw [show ∀ row, List.lookup r.job_id (dictSet store r.job_id row) = some row
    from fun row => lookup_dictSet_self store r.job_id row]
  simp only [row_to_record]
  rw [decodeCandidates_of_bounds r.addresses hconf]
  exact ⟨_, rfl, rfl, rfl, rfl⟩

/-- Witness for C8: round trip of a concrete record through an empty store. -/
theorem C8_upsert_get_roundtrip_witness :
    ∃ rec, repository_get (repository_upsert [] sampleJobRecord)
        sampleJobRecord.job_id = .ok (some rec) ∧
      rec.addresses.length = sampleJobRecord.addresses.length ∧
      rec.route.length = sampleJobRecord.route.length ∧
      rec.status = sampleJobRecord.status :=
  C8_upsert_get_roundtrip [] sampleJobRecord (by
    intro c hc
    simp only [sampleJobRecord, List.mem_singleton] at hc
    subst hc
    norm_num)

/-- C2 counterexample: with a provider that answers the first attempt of the
single composed query with HTTP 429 (GeocoderQuotaExceeded) and would succeed
on a retry, geocode_address returns a result with no coordinates and the
failure message "Geocoding quota exceeded" — no wait-and-retry happens.  The
second conjunct shows the very same query would have returned coordinates on
attempt 1. -/
theorem C2_counterexample :
    (geocode_address sampleQuotaEnv [("road", "Main")] "Main" ⟨[], []⟩).1 =
        ⟨none, none, 0, some "Geocoding quota exceeded", none⟩ ∧
      fetch sampleQuotaEnv "Main" 1 =
        .ok ⟨some 1, some 2, 1 / 2, none, some "1 Main St"⟩ := by
  constructor
  · rfl
  · rfl

/-- C2 (amended): a rate-limit/quota (HTTP 429) response does not trigger
any retry: _fetch immediately converts it into a GeocodeResult with message
"Geocoding quota exceeded" and no coordinates, geocode_address records it as
last_result and moves on to the next composed query.  With a single composed
query the final result therefore carries the failure message and no
coordinates — regardless of what the provider would have answered on a
retry — and the provider is called exactly once for that query. -/
theorem C2_quota_no_retry (env : GeoEnv) (parsed : List (String × String))
    (raw q : String) (st : GeoState)
    (hp : ¬parsed = []) (hq : compose_queries parsed raw = [q]) (hne : ¬q = "")
    (hcache : st.cache.lookup q = none) (hlog : q ∉ st.log)
    (hcall : env.call q 0 = .raiseQuota) :
    (geocode_address env parsed raw st).1 =
        ⟨none, none, 0, some "Geocoding quota exceeded", none⟩ ∧
      (geocode_address env parsed raw st).2.log = st.log ++ [q] := by
  have hocc : countOcc st.log q = 0 := by
    rw [countOcc, List.length_eq_zero, List.filter_eq_nil_iff]
    intro x hx
    simp only [decide_eq_true_eq]
    intro hxq
    exact hlog (hxq ▸ hx)
  unfold geocode_address
  rw [if_neg hp, hq]
  simp only [geocodeLoop]
  rw [if_neg hne, hcache, hocc]
  simp only [fetch, hcall]
  simp [geocodeLoop]

/-- Witness for C2 (amended), at a concrete environment and query. -/
theorem C2_quota_no_retry_witness :
    (geocode_address sampleQuotaEnv [("road", "Oak")] "Oak" ⟨[], []⟩).1 =
        ⟨none, none, 0, some "Geocoding quota exceeded", none⟩ ∧
      (geocode_address sampleQuotaEnv [("road", "Oak")] "Oak" ⟨[], []⟩).2.log =
        [] ++ ["Oak"] :=
  C2_quota_no_retry sampleQuotaEnv [("road", "Oak")] "Oak" "Oak" ⟨[], []⟩
    (by decide) rfl (by decide) rfl (by decide) rfl

theorem filterDuplicates_nil : filterDuplicates [] = [] := by
  unfold filterDuplicates
  rw [List.map_nil, dedupFirst_nil]
  rfl

/-- C3: evaluating _process_job and the sliding-window extraction pipeline
at the same OCR output (two lines, a parser recognizing neither) shows they
disagree: the job stores one candidate per raw OCR line (2 failed
candidates, no sliding windows, no validation, no dedup) and completes,
while the extraction pipeline (4.1–4.4) stores no address at all. -/
theorem C3_process_job_skips_pipeline :
    ((processJob sampleUnparsedEnv initialJobState "job-1").toOption.bind
        (fun st => st.jobs.lookup "job-1")).map
        (fun r => (r.status, r.addresses.length)) = some ("completed", 2) ∧
      service_process_sliding sampleUnparsedEnv "/img.png" = .ok [] := by
  constructor
  · rfl
  · show Except.ok
        (filterDuplicates (([] : List (String × AddressCandidate)).map Prod.snd)) =
      Except.ok ([] : List AddressCandidate)
    rw [List.map_nil, filterDuplicates_nil]

/-- C1 counterexample: a parser exception ("boom") on the only OCR line does
not fail the job: _process_job catches it per line, converts it into a
failed candidate carrying the message, and the job completes with an empty
error list — contradicting the claim that a parsing exception appends the
message to the record's errors and sets the job status to failed. -/
theorem C1_counterexample :
    ((processJob sampleParserRaisesEnv initialJobState "job-1").toOption.bind
        (fun st => st.jobs.lookup "job-1")).map
        (fun r => (r.status, r.errors, r.addresses.map (fun c => c.message))) =
      some ("completed", [], [some "boom"]) := by
  rfl

theorem buildAddresses_ok_of_geocoder_ok (env : JobEnv)
    (hgeo : ∀ p t, (env.geocoder p t).isOk) :
    ∀ lines : List (String × ℚ), ∃ cs, buildAddresses env lines = .ok cs := by
  intro lines
  induction lines with
  | nil => exact ⟨[], rfl⟩
  | cons line rest ih =>
    obtain ⟨text, conf⟩ := line
    obtain ⟨cs, hcs⟩ := ih
    have hline : ∃ c, processLine env text conf = .ok c := by
      unfold processLine
      rcases hps : env.parseAddr text with e | parsed
      · exact ⟨_, rfl⟩
      · dsimp only
        by_cases htr : optDictTruthy parsed = true
        · rw [if_pos htr]
          rcases hg : env.geocoder (parsed.getD []) text with ge | g
          · have := hgeo (parsed.getD []) text
            rw [hg] at this
            simp [Except.isOk, Except.toBool] at this
          · exact ⟨_, rfl⟩
        · rw [if_neg htr]
          exact ⟨_, rfl⟩
    obtain ⟨c, hc⟩ := hline
    refine ⟨c :: cs, ?_⟩
    simp only [buildAddresses]
    rw [hc, hcs]

/-- C1 (amended): _process_job never propagates an exception raised by OCR,
a geocoding call, route computation, or the persist of the completed record:
whenever the try block raises some message e, the handler appends e to the
record's errors, sets its status to failed, persists the failed record and
the run returns normally — provided that final persist itself succeeds (it
sits outside the guard, so its own failure would propagate).  An address
parser exception, by contrast, is caught per OCR line and converted into a
failed candidate: with every other stage healthy the job still completes,
whatever the parser does, with no error recorded on the job. -/
theorem C1_failure_boundary :
    (∀ (env : JobEnv) (st : JobState) (job_id : String) (rec : JobRecord),
      st.jobs.lookup job_id = some rec →
      env.persist st.persistCalls = none →
      ∀ e stE recE,
        tryBlock env
            ⟨dictSet st.jobs job_id (processingRecord env rec),
              st.persisted ++ [processingRecord env rec], st.persistCalls + 1⟩
            job_id (processingRecord env rec) = (some e, stE) →
        stE.jobs.lookup job_id = some recE →
        env.persist stE.persistCalls = none →
        processJob env st job_id = .ok
          ⟨dictSet stE.jobs job_id (failedRecord env recE e),
            stE.persisted ++ [failedRecord env recE e], stE.persistCalls + 1⟩) ∧
    (∀ (env : JobEnv) (st : JobState) (job_id : String) (rec : JobRecord)
      (lines : List (String × ℚ)),
      st.jobs.lookup job_id = some rec →
      env.ocr rec.image_path = .ok lines →
      (∀ p t, (env.geocoder p t).isOk) →
      (∀ inputs, (env.router inputs).isOk) →
      (∀ n, env.persist n = none) →
      ∃ st' r', processJob env st job_id = .ok st' ∧
        st'.jobs.lookup job_id = some r' ∧ r'.status = "completed" ∧
        r'.errors = rec.errors) := by
  constructor
  · intro env st job_id rec hlook hp0 e stE recE htry hlookE hpE
    unfold processJob
    rw [hlook]
    simp only [doPersist]
    rw [hp0]
    dsimp only
    rw [htry]
    dsimp only
    unfold exceptHandler
    rw [hlookE]
    dsimp only
    simp only [doPersist]
    rw [hpE]
  · intro env st job_id rec lines hlook hocr hgeo hrouter hpersist
    obtain ⟨cs, hcs⟩ := buildAddresses_ok_of_geocoder_ok env hgeo lines
    have hroute : ∃ route, env.router (routeInputs (processingRecord env rec) cs) =
        .ok route := by
      rcases hr : env.router (routeInputs (processingRecord env rec) cs) with
        e | route
      · have := hrouter (routeInputs (processingRecord env rec) cs)
        rw [hr] at this
        simp [Except.isOk, Except.toBool] at this
      · exact ⟨route, rfl⟩
    obtain ⟨route, hr⟩ := hroute
    unfold processJob
    rw [hlook]
    simp only [doPersist]
    rw [hpersist]
    dsimp only
    unfold tryBlock
    have himg : (processingRecord env rec).image_path = rec.image_path := rfl
    rw [himg, hocr]
    dsimp only
    rw [hcs]
    dsimp only
    rw [hr]
    dsimp only
    rw [show (dictSet st.jobs job_id (processingRecord env rec)).lookup job_id =
      some (processingRecord env rec) from lookup_dictSet_self _ _ _]
    dsimp only
    simp only [doPersist]
    rw [hpersist]
    dsimp only
    refine ⟨_, _, rfl, lookup_dictSet_self _ _ _, rfl, rfl⟩

/-- Witness for C1 (amended): a failing OCR call yields a normal return with
the failed record persisted; a raising parser still completes the job. -/
theorem C1_failure_boundary_witness :
    processJob sampleOcrFailEnv initialJobState "job-1" = .ok
        ⟨dictSet (dictSet initialJobState.jobs "job-1"
            (processingRecord sampleOcrFailEnv blankRecord)) "job-1"
            (failedRecord sampleOcrFailEnv
              (processingRecord sampleOcrFailEnv blankRecord) "disk io error"),
          [processingRecord sampleOcrFailEnv blankRecord,
            failedRecord sampleOcrFailEnv
              (processingRecord sampleOcrFailEnv blankRecord) "disk io error"], 2⟩ ∧
      (∃ st' r', processJob sampleParserRaisesEnv initialJobState "job-1" =
          .ok st' ∧ st'.jobs.lookup "job-1" = some r' ∧ r'.status = "completed" ∧
        r'.errors = blankRecord.errors) :=
  ⟨C1_failure_boundary.1 sampleOcrFailEnv initialJobState "job-1" blankRecord rfl
      rfl "disk io error" _ _ rfl rfl rfl,
    C1_failure_boundary.2 sampleParserRaisesEnv initialJobState "job-1" blankRecord
      [("x", 9 / 10)] rfl rfl (fun _ _ => rfl) (fun _ => rfl) (fun _ => rfl)⟩

end Addris
